import Mathlib

/-!
Verification of the tile-grid / road-connectivity core of the generative-town
map generator.

The definitions below are shallow embeddings of the TypeScript sources:
  * `src/agent/types.ts`, `src/agent/types/primitives.ts` - the data model
  * `src/agent/lib/grid-state.ts`                         - the `GridState` class
  * `src/agent/planner/tools/draw-road.ts`                - the path placer tool
  * `src/agent/planner/tools/connect-roads.ts`            - the network repair tool
  * `src/agent/planner/tools/place-asset.ts`              - the asset placement tool
  * `src/agent/lib/render-map.ts`                         - canvas-size computation
  * the fixed spritesheet layout (`buildLayoutSlots`)

Mutable state (the `GridState` object threaded through the tools by closure
capture) is modelled by explicit state passing: every mutating operation takes
a `GridState` and returns the updated one.  A thrown JS `Error` is modelled by
returning the original state together with `some errorMessage` (a throw happens
before any mutation, so the caller keeps the unmodified object).  The two 2-D
cell arrays are modelled as total functions `Int -> Int -> Option MapCell`;
all reads and writes are bounds-checked exactly as in the source, so cells
outside `[0,width) x [0,height)` are never written nor read.
-/

namespace GenTown

/-- `Direction` enum from `types/primitives.ts`. -/
inductive Direction where
  | north
  | south
  | east
  | west
deriving DecidableEq

/-- `ConnectivityType` enum from `types/primitives.ts`. -/
inductive ConnectivityType where
  | none
  | path
  | edge
  | corner
  | intersection
  | cap
deriving DecidableEq

/-- `SpriteCategory` enum from `types/primitives.ts`. -/
inductive SpriteCategory where
  | ground
  | building
  | prop
  | wall
  | marker
deriving DecidableEq

/-- The two grid layers (`'ground' | 'object'`). -/
inductive Layer where
  | ground
  | object
deriving DecidableEq

/-- Placement anchor (`'top_left' | 'bottom_center' | 'center'`). -/
inductive Anchor where
  | top_left
  | bottom_center
  | center
deriving DecidableEq

/-- `ConnectivitySchema` from `types.ts` (the optional `contentSide` is kept). -/
structure Connectivity where
  type : ConnectivityType
  connects : List Direction
  contentSide : Option Direction := Option.none
deriving DecidableEq

/-- `PlacementSchema` from `types.ts`. -/
structure Placement where
  layer : Layer
  walkable : Bool
  anchor : Anchor
deriving DecidableEq

/-- `SpriteSchema` from `types.ts`.  `connectivity` is optional in the code
(`s.connectivity?.type` style access), so it is an `Option` here. -/
structure Sprite where
  id : String
  category : SpriteCategory
  col : Nat
  row : Nat
  w : Nat
  h : Nat
  description : String
  placement : Placement
  connectivity : Option Connectivity
deriving DecidableEq

/-- `SpritesheetMetadataSchema` from `types.ts`. -/
structure SpritesheetMetadata where
  theme : String
  tileSize : Int
  columns : Int
  rows : Int
  sprites : List Sprite
deriving DecidableEq

/-- `MapCellSchema` from `types.ts`. -/
structure MapCell where
  assetId : String
  rotation : Option Int := Option.none
  layer : Layer
deriving DecidableEq

/-- `MapSchema` from `types.ts` (the serialized grid handed to the renderer). -/
structure GameMap where
  width : Int
  height : Int
  ground : List (List (Option MapCell))
  objects : List (List (Option MapCell))

/-- A grid position `(x, y)`. -/
abbrev Pos := Int × Int

/-- The `GridState` class of `grid-state.ts`: fixed dimensions, the sprite
catalog, and the two mutable layers (modelled as functions). -/
structure GridState where
  width : Int
  height : Int
  metadata : SpritesheetMetadata
  ground : Int → Int → Option MapCell
  objects : Int → Int → Option MapCell

/-- `GridState.getSprite`: first catalog entry with the given id
(`this.metadata.sprites.find(s => s.id === id)`). -/
def getSprite (g : GridState) (id : String) : Option Sprite :=
  g.metadata.sprites.find? (fun s => decide (s.id = id))

/-- `GridState.getSpriteOrThrow`: the thrown `Error` becomes `Except.error`. -/
def getSpriteOrThrow (g : GridState) (id : String) : Except String Sprite :=
  match getSprite g id with
  | Option.none => Except.error ("Unknown sprite: " ++ id)
  | Option.some s => Except.ok s

/-- Point update of one layer function at `(x, y)`. -/
def writeCell (f : Int → Int → Option MapCell) (x y : Int) (c : MapCell) :
    Int → Int → Option MapCell :=
  fun a b => if a = x ∧ b = y then Option.some c else f a b

/-- Whether `(x, y)` fails the bounds check of `grid-state.ts`
(`x < 0 || x >= this.width || y < 0 || y >= this.height`). -/
def outOfBounds (g : GridState) (x y : Int) : Prop :=
  x < 0 ∨ g.width ≤ x ∨ y < 0 ∨ g.height ≤ y

instance (g : GridState) (x y : Int) : Decidable (outOfBounds g x y) := by
  unfold outOfBounds; infer_instance

/-- `GridState.setTile`.  The source first validates the sprite id
(`getSpriteOrThrow`), then the bounds, then overwrites the cell
unconditionally.  A throw is modelled as `(g, some msg)` - the state is the
unchanged input. -/
def setTile (g : GridState) (x y : Int) (assetId : String) (layer : Layer) :
    GridState × Option String :=
  match getSpriteOrThrow g assetId with
  | Except.error e => (g, Option.some e)
  | Except.ok _ =>
    if outOfBounds g x y then
      (g, Option.some ("Position out of bounds: (" ++ toString x ++ ", " ++ toString y ++ ")"))
    else
      match layer with
      | Layer.ground =>
          ({ g with ground := writeCell g.ground x y { assetId := assetId, layer := layer } },
            Option.none)
      | Layer.object =>
          ({ g with objects := writeCell g.objects x y { assetId := assetId, layer := layer } },
            Option.none)

/-- `GridState.getTile`: `None` out of bounds, else the cell. -/
def getTile (g : GridState) (x y : Int) (layer : Layer) : Option MapCell :=
  if outOfBounds g x y then Option.none
  else
    match layer with
    | Layer.ground => g.ground x y
    | Layer.object => g.objects x y

/-- `GridState.getSpritesByCategory`. -/
def getSpritesByCategory (g : GridState) (category : SpriteCategory) : List Sprite :=
  g.metadata.sprites.filter (fun s => decide (s.category = category))

/-- The connects list of a sprite (`s.connectivity?.connects ?? []`). -/
def connectsOf (s : Sprite) : List Direction :=
  match s.connectivity with
  | Option.none => []
  | Option.some c => c.connects

/-- `GridState.getSpritesWithConnections`: sprites whose connects list has the
same length as `directions` and contains every requested direction. -/
def getSpritesWithConnections (g : GridState) (directions : List Direction) : List Sprite :=
  g.metadata.sprites.filter (fun s =>
    decide ((connectsOf s).length = directions.length) &&
      directions.all (fun d => decide (d ∈ connectsOf s)))

/-- Road test on a connectivity type
(`type === 'path' || type === 'corner' || type === 'intersection' || type === 'cap'`). -/
def ConnectivityType.isRoad : ConnectivityType → Bool
  | ConnectivityType.path => true
  | ConnectivityType.corner => true
  | ConnectivityType.intersection => true
  | ConnectivityType.cap => true
  | _ => false

/-- `isRoadSprite` (defined identically in `draw-road.ts` and
`connect-roads.ts`; `grid-state.ts` inlines the same test). -/
def isRoadSprite (s : Sprite) : Bool :=
  match s.connectivity with
  | Option.none => false
  | Option.some c => c.type.isRoad

/-- `GridState.isRoadAt`: ground-layer tile present whose sprite has path-like
connectivity. -/
def isRoadAt (g : GridState) (x y : Int) : Bool :=
  match getTile g x y Layer.ground with
  | Option.none => false
  | Option.some tile =>
    match getSprite g tile.assetId with
    | Option.none => false
    | Option.some sprite => isRoadSprite sprite

/-- The integers `0, 1, ..., n-1` (row/column iteration of the source loops). -/
def intRange (n : Int) : List Int :=
  (List.range n.toNat).map (fun i : Nat => (i : Int))

/-- All grid positions in the row-major order of the `getRoadNetwork` loops. -/
def allPositions (g : GridState) : List Pos :=
  (intRange g.height).flatMap (fun y => (intRange g.width).map (fun x => ((x, y) : Pos)))

/-- `GridState.getRoadNetwork`: every position whose tile is a road, in
row-major insertion order (the JS `Set<string>` preserves insertion order). -/
def roadPositionsList (g : GridState) : List Pos :=
  (allPositions g).filter (fun p => isRoadAt g p.1 p.2)

/-- The four neighbour offsets of `getRoadIslands`, in source order
(north, south, east, west). -/
def neighbors (p : Pos) : List Pos :=
  [(p.1, p.2 - 1), (p.1, p.2 + 1), (p.1 + 1, p.2), (p.1 - 1, p.2)]

/-- The BFS inner loop of `GridState.getRoadIslands`.  `road` is the road-tile
set, `queue`/`visited`/`island` are the loop variables.  The `while` loop is
modelled with a fuel parameter; `getRoadIslands` supplies fuel that is proved
sufficient (`5 * road.length + 1`), so the fuel-exhausted branch is never
taken on the actual call.  Returns the island and the updated visited set. -/
def bfsAux (road : List Pos) : Nat → List Pos → List Pos → List Pos → List Pos × List Pos
  | 0, _, visited, island => (island, visited)
  | _ + 1, [], visited, island => (island, visited)
  | fuel + 1, c :: queue, visited, island =>
    if c ∈ visited then bfsAux road fuel queue visited island
    else
      bfsAux road fuel
        (queue ++ (neighbors c).filter (fun p =>
          decide (p ∈ road) && !decide (p ∈ c :: visited)))
        (c :: visited) (island ++ [c])

/-- One island of `getRoadIslands`: member tiles plus axis-aligned bounds. -/
structure Island where
  tiles : List Pos
  minX : Int
  maxX : Int
  minY : Int
  maxY : Int

/-- `Math.min(...l)` over a nonempty list (the source only applies it to
nonempty islands; the default is irrelevant). -/
def listMin (l : List Int) : Int :=
  match l with
  | [] => 0
  | x :: xs => xs.foldl min x

/-- `Math.max(...l)` over a nonempty list. -/
def listMax (l : List Int) : Int :=
  match l with
  | [] => 0
  | x :: xs => xs.foldl max x

/-- Bounds computation of `getRoadIslands` for a finished island. -/
def boundsOf (tiles : List Pos) : Island :=
  { tiles := tiles
    minX := listMin (tiles.map Prod.fst)
    maxX := listMax (tiles.map Prod.fst)
    minY := listMin (tiles.map Prod.snd)
    maxY := listMax (tiles.map Prod.snd) }

/-- The outer loop of `getRoadIslands`: iterate the seeds in order, skip
visited ones, flood-fill from each fresh seed, keep nonempty islands. -/
def getRoadIslandsAux (road : List Pos) : List Pos → List Pos → List Island
  | [], _ => []
  | seed :: rest, visited =>
    if seed ∈ visited then getRoadIslandsAux road rest visited
    else
      let r := bfsAux road (5 * road.length + 1) [seed] visited []
      if r.1 = [] then getRoadIslandsAux road rest r.2
      else boundsOf r.1 :: getRoadIslandsAux road rest r.2

/-- `GridState.getRoadIslands`: multi-source flood fill over the road set. -/
def getRoadIslands (g : GridState) : List Island :=
  getRoadIslandsAux (roadPositionsList g) (roadPositionsList g) []

/-- The record returned by `GridState.validateRoadConnectivity`. -/
structure RoadConnectivityReport where
  connected : Bool
  totalRoadTiles : Nat
  islandCount : Nat
  islands : List Island

/-- `GridState.validateRoadConnectivity`. -/
def validateRoadConnectivity (g : GridState) : RoadConnectivityReport :=
  let islands := getRoadIslands g
  { connected := decide (islands.length ≤ 1)
    totalRoadTiles := islands.foldl (fun sum island => sum + island.tiles.length) 0
    islandCount := islands.length
    islands := islands }

/-! ### Path placer helpers

The following helpers are defined - with identical bodies - in both
`draw-road.ts` and `connect-roads.ts`; they are embedded once here:
`DIRECTION_OFFSETS`, `OPPOSITE_DIRECTION`, `generateManhattanPath`,
`getDirectionBetween`, `getAdjacentRoadConnections`, `getPathConnections`,
`findMatchingRoadSprite`, `updateAdjacentRoad`.
-/

/-- `DIRECTION_OFFSETS` as an offset function. -/
def dirOffset : Direction → Pos
  | Direction.north => (0, -1)
  | Direction.south => (0, 1)
  | Direction.east => (1, 0)
  | Direction.west => (-1, 0)

/-- `OPPOSITE_DIRECTION`. -/
def oppositeDir : Direction → Direction
  | Direction.north => Direction.south
  | Direction.south => Direction.north
  | Direction.east => Direction.west
  | Direction.west => Direction.east

/-- Key iteration order of `Object.entries(DIRECTION_OFFSETS)` /
`Object.values(DIRECTION_OFFSETS)` (JS object insertion order). -/
def directionList : List Direction :=
  [Direction.north, Direction.south, Direction.east, Direction.west]

/-- Printed form of a direction (for error messages). -/
def dirString : Direction → String
  | Direction.north => "north"
  | Direction.south => "south"
  | Direction.east => "east"
  | Direction.west => "west"

/-- One `while (x !== to)` loop of `generateManhattanPath`: the visited values
starting at `a`, stepping by `+-1` toward `b`, excluding `b`.  The loop runs
exactly `(b - a).natAbs` times, which is supplied as structural fuel. -/
def stepsTowardAux : Nat → Int → Int → List Int
  | 0, _, _ => []
  | n + 1, a, b =>
    if a = b then []
    else a :: stepsTowardAux n (if a < b then a + 1 else a - 1) b

/-- The values of the loop variable from `a` toward `b`, excluding `b`. -/
def stepsToward (a b : Int) : List Int :=
  stepsTowardAux (b - a).natAbs a b

/-- `generateManhattanPath`: horizontal leg at `fromY` first (excluding
`toX`), then vertical leg at `toX` (excluding `toY`), then the endpoint. -/
def generateManhattanPath (fromX fromY toX toY : Int) : List Pos :=
  ((stepsToward fromX toX).map (fun x => ((x, fromY) : Pos))) ++
    ((stepsToward fromY toY).map (fun y => ((toX, y) : Pos))) ++
    [(toX, toY)]

/-- `getDirectionBetween`. -/
def getDirectionBetween (fromX fromY toX toY : Int) : Option Direction :=
  let dx := toX - fromX
  let dy := toY - fromY
  if dx = 1 ∧ dy = 0 then Option.some Direction.east
  else if dx = -1 ∧ dy = 0 then Option.some Direction.west
  else if dx = 0 ∧ dy = 1 then Option.some Direction.south
  else if dx = 0 ∧ dy = -1 then Option.some Direction.north
  else Option.none

/-- `getAdjacentRoadConnections`: directions whose in-bounds neighbour holds a
road sprite that connects back toward `(x, y)`. -/
def getAdjacentRoadConnections (g : GridState) (x y : Int) : List Direction :=
  directionList.filterMap (fun dir =>
    let off := dirOffset dir
    let nx := x + off.1
    let ny := y + off.2
    if nx < 0 ∨ g.width ≤ nx ∨ ny < 0 ∨ g.height ≤ ny then Option.none
    else
      match getTile g nx ny Layer.ground with
      | Option.none => Option.none
      | Option.some tile =>
        match getSprite g tile.assetId with
        | Option.none => Option.none
        | Option.some sprite =>
          if isRoadSprite sprite && decide (oppositeDir dir ∈ connectsOf sprite) then
            Option.some dir
          else Option.none)

/-- `getPathConnections`: the 0-2 directions implied by the route neighbours
of point `index`.  (JS `path[index - 1]` is `undefined` when `index` is 0.) -/
def getPathConnections (path : List Pos) (index : Nat) : List Direction :=
  match path[index]? with
  | Option.none => []
  | Option.some current =>
    let fromPrev : List Direction :=
      match (if index = 0 then Option.none else path[index - 1]?) with
      | Option.none => []
      | Option.some prev =>
        match getDirectionBetween current.1 current.2 prev.1 prev.2 with
        | Option.none => []
        | Option.some d => [d]
    let fromNext : List Direction :=
      match path[index + 1]? with
      | Option.none => []
      | Option.some next =>
        match getDirectionBetween current.1 current.2 next.1 next.2 with
        | Option.none => []
        | Option.some d => [d]
    fromPrev ++ fromNext

/-- `findMatchingRoadSprite`: first ground-category road sprite with exactly
the requested connections (in catalog order). -/
def findMatchingRoadSprite (g : GridState) (connections : List Direction) : Option Sprite :=
  ((getSpritesWithConnections g connections).filter (fun s =>
    decide (s.category = SpriteCategory.ground) && isRoadSprite s)).head?

/-- `updateAdjacentRoad`: upgrade the road tile at `(x, y)` with one new
connection, if a matching sprite exists.  Returns the updated grid and the
source's boolean.  (The inner `setTile` cannot throw here: the tile exists,
so `(x, y)` is in bounds, and the new sprite id comes from the catalog.) -/
def updateAdjacentRoad (g : GridState) (x y : Int) (newConnection : Direction) :
    GridState × Bool :=
  match getTile g x y Layer.ground with
  | Option.none => (g, false)
  | Option.some tile =>
    match getSprite g tile.assetId with
    | Option.none => (g, false)
    | Option.some sprite =>
      if isRoadSprite sprite = false then (g, false)
      else
        let currentConnections := connectsOf sprite
        if newConnection ∈ currentConnections then (g, false)
        else
          match findMatchingRoadSprite g (currentConnections ++ [newConnection]) with
          | Option.none => (g, false)
          | Option.some newSprite =>
            if newSprite.id ≠ tile.assetId then
              ((setTile g x y newSprite.id Layer.ground).1, true)
            else (g, false)

/-- `updateAdjacentRoads` (`draw-road.ts`), also the inline post-placement
update loop of `drawConnectingRoad` (`connect-roads.ts`): for every placed
connection, upgrade the in-bounds neighbour with the opposite direction. -/
def updateAdjacentRoads (g : GridState) (x y : Int) (placedConnections : List Direction) :
    GridState × Nat :=
  placedConnections.foldl
    (fun (st : GridState × Nat) dir =>
      let off := dirOffset dir
      let nx := x + off.1
      let ny := y + off.2
      if nx < 0 ∨ st.1.width ≤ nx ∨ ny < 0 ∨ st.1.height ≤ ny then st
      else
        let r := updateAdjacentRoad st.1 nx ny (oppositeDir dir)
        (r.1, st.2 + if r.2 then 1 else 0))
    (g, 0)

/-! ### drawRoad tool (`draw-road.ts`) -/

/-- The closure state of `createDrawRoadTool` (`RoadNetworkTracker`).  The JS
`Set<string>` of `"x,y"` keys is modelled as a duplicate-free position list in
insertion order. -/
structure RoadNetworkTracker where
  tilesPlaced : Nat
  maxTiles : Nat
  roadTiles : List Pos

/-- `Set.add`: append if absent. -/
def insertPos (l : List Pos) (p : Pos) : List Pos :=
  if p ∈ l then l else l ++ [p]

/-- `isPointOnOrAdjacentToRoad` (the `grid` parameter is unused in the
source as well; connectivity gating consults only the tracked set). -/
def isPointOnOrAdjacentToRoad (_grid : GridState) (x y : Int) (roadTiles : List Pos) : Bool :=
  decide ((x, y) ∈ roadTiles) ||
    directionList.any (fun dir =>
      let off := dirOffset dir
      decide (((x + off.1, y + off.2) : Pos) ∈ roadTiles))

/-- The tool result (the diagnostic fields `suggestion`,
`budgetRemaining`, `totalRoadTiles` and the ASCII layer dumps are elided;
`success`, `error`, the counters and the per-cell error list are kept). -/
structure DrawRoadResult where
  success : Bool
  error : Option String := Option.none
  tilesPlaced : Nat := 0
  tilesUpdated : Nat := 0
  errors : List String := []

/-- Loop state of the tile-placement loop in `drawRoad.execute`. -/
structure PlaceLoopState where
  grid : GridState
  roadTiles : List Pos
  tilesPlaced : Nat
  tilesUpdated : Nat
  errors : List String

/-- One iteration of the `drawRoad.execute` placement loop at route index
`i`/point `point`.  (`[...new Set([...a, ...b])]` is order-preserving
deduplication, i.e. `eraseDups` of the concatenation.) -/
def drawRoadPlacePoint (path : List Pos) (st : PlaceLoopState) (i : Nat) (point : Pos) :
    PlaceLoopState :=
  let pathConnections := getPathConnections path i
  let adjacentConnections := getAdjacentRoadConnections st.grid point.1 point.2
  let deduped := (pathConnections ++ adjacentConnections).eraseDups
  let allConnections := if deduped = [] then [Direction.east, Direction.west] else deduped
  match findMatchingRoadSprite st.grid allConnections with
  | Option.none =>
    { st with errors := st.errors ++
        ["No road sprite for connections [" ++
          String.intercalate ", " (allConnections.map dirString) ++ "] at (" ++
          toString point.1 ++ ", " ++ toString point.2 ++ ")"] }
  | Option.some sprite =>
    match setTile st.grid point.1 point.2 sprite.id Layer.ground with
    | (g', Option.none) =>
      let r := updateAdjacentRoads g' point.1 point.2 allConnections
      { grid := r.1
        roadTiles := insertPos st.roadTiles point
        tilesPlaced := st.tilesPlaced + 1
        tilesUpdated := st.tilesUpdated + r.2
        errors := st.errors }
    | (_, Option.some e) =>
      { st with errors := st.errors ++
          ["Failed to place at (" ++ toString point.1 ++ ", " ++ toString point.2 ++ "): " ++ e] }

/-- `drawRoad.execute`: bounds check, connection gating (only once a previous
invocation has placed tiles), budget check, then the placement loop.  Returns
the final grid, the updated tracker, and the result. -/
def drawRoadExec (g : GridState) (tracker : RoadNetworkTracker)
    (fromX fromY toX toY : Int) : GridState × RoadNetworkTracker × DrawRoadResult :=
  if outOfBounds g fromX fromY ∨ outOfBounds g toX toY then
    (g, tracker,
      { success := false
        error := Option.some ("Coordinates out of bounds. Map is " ++
          toString g.width ++ "x" ++ toString g.height ++ ".") })
  else if 0 < tracker.tilesPlaced ∧
      isPointOnOrAdjacentToRoad g fromX fromY tracker.roadTiles = false ∧
      isPointOnOrAdjacentToRoad g toX toY tracker.roadTiles = false then
    (g, tracker,
      { success := false
        error := Option.some ("Road must connect to existing network. Start (" ++
          toString fromX ++ "," ++ toString fromY ++ ") and end (" ++
          toString toX ++ "," ++ toString toY ++ ") are both disconnected.") })
  else
    let path := generateManhattanPath fromX fromY toX toY
    let remaining : Int := (tracker.maxTiles : Int) - (tracker.tilesPlaced : Int)
    if remaining < (path.length : Int) then
      (g, tracker,
        { success := false
          error := Option.some ("Road would exceed budget. Need " ++
            toString path.length ++ " tiles but only " ++ toString remaining ++
            " remaining.") })
    else
      let final := path.enum.foldl
        (fun st ip => drawRoadPlacePoint path st ip.1 ip.2)
        { grid := g, roadTiles := tracker.roadTiles, tilesPlaced := 0,
          tilesUpdated := 0, errors := [] }
      (final.grid,
        { tracker with
            tilesPlaced := tracker.tilesPlaced + final.tilesPlaced
            roadTiles := final.roadTiles },
        { success := decide (final.errors = [])
          tilesPlaced := final.tilesPlaced
          tilesUpdated := final.tilesUpdated
          errors := final.errors })

/-! ### connectRoads tool (`connect-roads.ts`) -/

/-- The record returned by `findNearestTilesBetweenIslands`. -/
structure NearestTiles where
  fromTile : Pos
  toTile : Pos
  distance : Int

/-- `Math.abs(t1.x - t2.x) + Math.abs(t1.y - t2.y)`. -/
def manhattanDist (p q : Pos) : Int :=
  ((p.1 - q.1).natAbs : Int) + ((p.2 - q.2).natAbs : Int)

/-- `findNearestTilesBetweenIslands`: exhaustive pairwise scan keeping the
first strictly-smaller distance. -/
def findNearestTilesBetweenIslands (island1 island2 : List Pos) : NearestTiles :=
  let best := island1.foldl
    (fun best t1 => island2.foldl
      (fun best t2 =>
        let distance := manhattanDist t1 t2
        match best with
        | Option.none => Option.some { fromTile := t1, toTile := t2, distance := distance }
        | Option.some b =>
          if distance < b.distance then
            Option.some { fromTile := t1, toTile := t2, distance := distance }
          else Option.some b)
      best)
    Option.none
  match best with
  | Option.none =>
    { fromTile := island1.headD (0, 0), toTile := island2.headD (0, 0), distance := 0 }
  | Option.some b => b

/-- The upgrade loop of the already-a-road branch of `drawConnectingRoad`:
for each route-implied connection, upgrade the neighbour in that direction
with the opposite direction (no bounds pre-check in the source here). -/
def skipBranchUpdates (path : List Pos) (i : Nat) (point : Pos) (g : GridState) :
    GridState × Nat :=
  (getPathConnections path i).foldl
    (fun (st : GridState × Nat) dir =>
      let off := dirOffset dir
      let r := updateAdjacentRoad st.1 (point.1 + off.1) (point.2 + off.2) (oppositeDir dir)
      (r.1, st.2 + if r.2 then 1 else 0))
    (g, 0)

/-- Loop state of the `drawConnectingRoad` route loop. -/
structure ConnectLoopState where
  grid : GridState
  tilesPlaced : Nat
  tilesUpdated : Nat
  errors : List String

/-- One iteration of the `drawConnectingRoad` route loop: skip (but upgrade
around) cells that are already roads, otherwise resolve and place. -/
def drawConnectingPoint (path : List Pos) (st : ConnectLoopState) (i : Nat) (point : Pos) :
    ConnectLoopState :=
  if isRoadAt st.grid point.1 point.2 then
    let r := skipBranchUpdates path i point st.grid
    { st with grid := r.1, tilesUpdated := st.tilesUpdated + r.2 }
  else
    let pathConnections := getPathConnections path i
    let adjacentConnections := getAdjacentRoadConnections st.grid point.1 point.2
    let deduped := (pathConnections ++ adjacentConnections).eraseDups
    let allConnections := if deduped = [] then [Direction.east, Direction.west] else deduped
    match findMatchingRoadSprite st.grid allConnections with
    | Option.none =>
      { st with errors := st.errors ++
          ["No sprite for connections [" ++
            String.intercalate ", " (allConnections.map dirString) ++ "] at (" ++
            toString point.1 ++ ", " ++ toString point.2 ++ ")"] }
    | Option.some sprite =>
      match setTile st.grid point.1 point.2 sprite.id Layer.ground with
      | (g', Option.none) =>
        let r := updateAdjacentRoads g' point.1 point.2 allConnections
        { grid := r.1
          tilesPlaced := st.tilesPlaced + 1
          tilesUpdated := st.tilesUpdated + r.2
          errors := st.errors }
      | (_, Option.some e) =>
        { st with errors := st.errors ++
            ["Failed at (" ++ toString point.1 ++ ", " ++ toString point.2 ++ "): " ++ e] }

/-- `drawConnectingRoad`. -/
def drawConnectingRoad (g : GridState) (fromX fromY toX toY : Int) : ConnectLoopState :=
  let path := generateManhattanPath fromX fromY toX toY
  path.enum.foldl (fun st ip => drawConnectingPoint path st ip.1 ip.2)
    { grid := g, tilesPlaced := 0, tilesUpdated := 0, errors := [] }

/-- The record returned by `connectRoads.execute` (ASCII dumps and the
`connections` list elided). -/
structure ConnectRoadsResult where
  success : Bool
  alreadyConnected : Bool := false
  previousIslandCount : Nat := 0
  finalIslandCount : Nat := 0
  tilesPlaced : Nat := 0
  tilesUpdated : Nat := 0
  errors : List String := []

/-- `connectRoads.execute`: if already connected, no mutation; otherwise
bridge consecutive islands of the (pre-computed) island list via the nearest
tile pair, then re-validate. -/
def connectRoadsExec (g : GridState) : GridState × ConnectRoadsResult :=
  let connectivity := validateRoadConnectivity g
  if connectivity.connected then
    (g, { success := true
          alreadyConnected := true
          previousIslandCount := connectivity.islandCount
          finalIslandCount := connectivity.islandCount })
  else
    let final := (connectivity.islands.zip connectivity.islands.tail).foldl
      (fun (st : ConnectLoopState) pair =>
        let nearest := findNearestTilesBetweenIslands pair.1.tiles pair.2.tiles
        let r := drawConnectingRoad st.grid nearest.fromTile.1 nearest.fromTile.2
          nearest.toTile.1 nearest.toTile.2
        { grid := r.grid
          tilesPlaced := st.tilesPlaced + r.tilesPlaced
          tilesUpdated := st.tilesUpdated + r.tilesUpdated
          errors := st.errors ++ r.errors })
      { grid := g, tilesPlaced := 0, tilesUpdated := 0, errors := [] }
    let finalConnectivity := validateRoadConnectivity final.grid
    (final.grid,
      { success := finalConnectivity.connected
        previousIslandCount := connectivity.islandCount
        finalIslandCount := finalConnectivity.islandCount
        tilesPlaced := final.tilesPlaced
        tilesUpdated := final.tilesUpdated
        errors := final.errors })

/-! ### placeAsset tool (`place-asset.ts`) -/

/-- The record returned by `placeAsset.execute` (the `placed` echo of the
sprite data and the ASCII dumps are elided). -/
structure PlaceAssetResult where
  success : Bool
  error : Option String := Option.none

/-- Printed form of a category (for the suggestion string). -/
def categoryString : SpriteCategory → String
  | SpriteCategory.ground => "ground"
  | SpriteCategory.building => "building"
  | SpriteCategory.prop => "prop"
  | SpriteCategory.wall => "wall"
  | SpriteCategory.marker => "marker"

/-- `placeAsset.execute`: bounds check, sprite check (with suggestions),
layer resolution from sprite metadata, ground-exists check and occupancy
check for the object layer, then `setTile`. -/
def placeAssetExec (g : GridState) (x y : Int) (assetId : String)
    (layerParam : Option Layer) : GridState × PlaceAssetResult :=
  if outOfBounds g x y then
    (g, { success := false
          error := Option.some ("Position (" ++ toString x ++ ", " ++ toString y ++
            ") is out of bounds. Map is " ++ toString g.width ++ "x" ++
            toString g.height ++ ".") })
  else
    match getSprite g assetId with
    | Option.none =>
      let allSprites := getSpritesByCategory g SpriteCategory.building ++
        getSpritesByCategory g SpriteCategory.prop ++
        getSpritesByCategory g SpriteCategory.marker
      let suggestions := String.intercalate ", "
        ((allSprites.take 5).map (fun s => s.id ++ " (" ++ categoryString s.category ++ ")"))
      (g, { success := false
            error := Option.some ("Unknown asset: \"" ++ assetId ++ "\". Available: " ++
              suggestions) })
    | Option.some sprite =>
      let targetLayer := layerParam.getD sprite.placement.layer
      if targetLayer = Layer.object ∧ getTile g x y Layer.ground = Option.none then
        (g, { success := false
              error := Option.some ("Cannot place object at (" ++ toString x ++ ", " ++
                toString y ++ "): no ground tile exists. Use fillGround first.") })
      else
        match (if targetLayer = Layer.object then getTile g x y Layer.object
               else Option.none) with
        | Option.some existing =>
          (g, { success := false
                error := Option.some ("Position (" ++ toString x ++ ", " ++ toString y ++
                  ") already has an object: " ++ existing.assetId) })
        | Option.none =>
          match setTile g x y assetId targetLayer with
          | (g', Option.none) => (g', { success := true })
          | (g', Option.some e) =>
            (g', { success := false
                   error := Option.some ("Failed to place " ++ assetId ++ " at (" ++
                     toString x ++ ", " ++ toString y ++ "): " ++ e) })

/-! ### Renderer canvas geometry (`render-map.ts`)

Only the pure canvas-size computation of `renderMap` is embedded (the pixel
compositing itself is IO through `sharp`):
`scaledTileSize = Math.round(tileSize * scale)`,
`canvasWidth = map.width * scaledTileSize`,
`canvasHeight = map.height * scaledTileSize`; the returned `RenderResult`
reports exactly these as `width`/`height`.
-/

/-- JS `Math.round` on the exact rational value: round half toward plus
infinity, i.e. `Math.round(x) = floor(x + 0.5)`.  (`Rat.floor` is the
computable floor on the rationals.) -/
def jsRound (q : ℚ) : Int := (q + 1 / 2).floor

/-- The output dimensions of the canvas created by `renderMap`. -/
structure RenderDims where
  width : Int
  height : Int

/-- Canvas-size computation of `renderMap` (lines 174-177, reported
unchanged in the `RenderResult` at lines 225-235). -/
def renderCanvasDims (map : GameMap) (tileSize : Int) (scale : ℚ) : RenderDims :=
  let scaledTileSize := jsRound ((tileSize : ℚ) * scale)
  { width := map.width * scaledTileSize, height := map.height * scaledTileSize }

/-! ### The fixed spritesheet layout (`buildLayoutSlots`) -/

/-- A structural slot of the fixed layout. -/
structure SpriteSlot where
  col : Nat
  row : Nat
  w : Nat
  h : Nat
  category : SpriteCategory
  placement : Placement
  connectivity : Connectivity
  hint : String

/-- One entry of the `roadConnections` table. -/
structure RoadConfig where
  connects : List Direction
  type : ConnectivityType
  hint : String

/-- The `roadConnections` table: the layout's eight road tiles.  Note the
only T-junction provided is the south-facing one. -/
def roadConnections : List RoadConfig :=
  [ { connects := [Direction.east, Direction.west], type := ConnectivityType.path,
      hint := "horizontal road" }
  , { connects := [Direction.north, Direction.south], type := ConnectivityType.path,
      hint := "vertical road" }
  , { connects := [Direction.north, Direction.east], type := ConnectivityType.corner,
      hint := "road corner NE" }
  , { connects := [Direction.north, Direction.west], type := ConnectivityType.corner,
      hint := "road corner NW" }
  , { connects := [Direction.south, Direction.east], type := ConnectivityType.corner,
      hint := "road corner SE" }
  , { connects := [Direction.south, Direction.west], type := ConnectivityType.corner,
      hint := "road corner SW" }
  , { connects := [Direction.north, Direction.south, Direction.east, Direction.west],
      type := ConnectivityType.intersection, hint := "4-way intersection" }
  , { connects := [Direction.south, Direction.east, Direction.west],
      type := ConnectivityType.intersection, hint := "T-junction (south)" } ]

/-- Row 0 of the layout: the road slots. -/
def roadSlots : List SpriteSlot :=
  roadConnections.enum.map (fun ic =>
    { col := ic.1, row := 0, w := 1, h := 1
      category := SpriteCategory.ground
      placement := { layer := Layer.ground, walkable := true, anchor := Anchor.top_left }
      connectivity := { type := ic.2.type, connects := ic.2.connects }
      hint := ic.2.hint })

/-- The `groundHints` table (hint, walkable). -/
def groundHints : List (String × Bool) :=
  [ ("primary walkable surface", true)
  , ("secondary walkable surface", true)
  , ("decorative/accent ground", true)
  , ("pathway/trail surface", true)
  , ("rough/uneven terrain", true)
  , ("damaged/worn surface", true)
  , ("natural growth (moss/grass)", true)
  , ("hazard zone (water/lava/void)", false) ]

/-- Row 1 of the layout: plain ground slots. -/
def groundSlots : List SpriteSlot :=
  groundHints.enum.map (fun ic =>
    { col := ic.1, row := 1, w := 1, h := 1
      category := SpriteCategory.ground
      placement := { layer := Layer.ground, walkable := ic.2.2, anchor := Anchor.top_left }
      connectivity := { type := ConnectivityType.none, connects := [] }
      hint := ic.2.1 })

/-- The `buildingHints` table. -/
def buildingHints : List String :=
  [ "main/important building", "secondary building", "small shop or house"
  , "utility or special building" ]

/-- Rows 2-3 of the layout: 2x2 building slots. -/
def buildingSlots : List SpriteSlot :=
  buildingHints.enum.map (fun ic =>
    { col := ic.1 * 2, row := 2, w := 2, h := 2
      category := SpriteCategory.building
      placement := { layer := Layer.object, walkable := false, anchor := Anchor.bottom_center }
      connectivity := { type := ConnectivityType.none, connects := [] }
      hint := ic.2 })

/-- The `propHints` table. -/
def propHints : List String :=
  [ "light source (lamp/torch/lantern)", "small container (bin/pot/urn)"
  , "seating (bench/stool/log)", "signage (post/marker/banner)"
  , "utility object A", "utility object B", "tall infrastructure"
  , "wall-mounted or pipe"
  , "small tree or large plant", "bush or shrub", "potted plant or flowers"
  , "ground cover (grass/leaves)", "small rock or stone", "large rock or boulder"
  , "water feature (puddle/pond)", "natural growth (moss/fungi)"
  , "storage container (crate/chest)", "barrel or drum"
  , "large container (dumpster/cart)", "stacked items", "small barrier (cone/post)"
  , "large barrier (fence/wall)", "ground detail (manhole/grate)", "floor decoration"
  , "vending/service machine", "communication device (booth/terminal)"
  , "statue or monument", "fountain or water feature", "market stall or stand"
  , "wheeled transport (cart/wagon)", "parked vehicle", "storage rack or holder" ]

/-- `walkablePropIndices`. -/
def walkablePropIndices : List Nat := [11, 14, 22, 23]

/-- Rows 4-7 of the layout: 1x1 prop slots. -/
def propSlots : List SpriteSlot :=
  propHints.enum.map (fun ic =>
    { col := ic.1 % 8, row := 4 + ic.1 / 8, w := 1, h := 1
      category := SpriteCategory.prop
      placement := { layer := Layer.object
                     walkable := decide (ic.1 ∈ walkablePropIndices)
                     anchor := Anchor.bottom_center }
      connectivity := { type := ConnectivityType.none, connects := [] }
      hint := ic.2 })

/-- `buildLayoutSlots`: 8 roads + 8 grounds + 4 buildings + 32 props. -/
def buildLayoutSlots : List SpriteSlot :=
  roadSlots ++ groundSlots ++ buildingSlots ++ propSlots

/-- Instantiating the layout slots into a sprite catalog: the designer LLM
fills in `id` and `description`; structurally each sprite copies its slot. -/
def layoutSprites (ids : List String) : List Sprite :=
  (buildLayoutSlots.zip ids).map (fun si =>
    { id := si.2, category := si.1.category, col := si.1.col, row := si.1.row
      w := si.1.w, h := si.1.h, description := si.1.hint
      placement := si.1.placement, connectivity := Option.some si.1.connectivity })

/-- A concrete id assignment for the 52 layout slots. -/
def sampleIds : List String :=
  ["road_ew", "road_ns", "road_ne", "road_nw", "road_se", "road_sw",
   "road_x", "road_tsouth"] ++
    (List.range 44).map (fun i => "asset_" ++ toString i)

/-- A concrete catalog built from the fixed layout. -/
def layoutMetadata : SpritesheetMetadata :=
  { theme := "sample", tileSize := 256, columns := 8, rows := 8
    sprites := layoutSprites sampleIds }

/-- An empty 10x10 grid over the layout catalog. -/
def sampleGrid : GridState :=
  { width := 10, height := 10, metadata := layoutMetadata
    ground := fun _ _ => Option.none, objects := fun _ _ => Option.none }

/-- A tracker state in which one previous invocation has placed a road. -/
def sampleTracker : RoadNetworkTracker :=
  { tilesPlaced := 1, maxTiles := 50, roadTiles := [((0 : Int), (0 : Int))] }

/-- The sample grid after placing the horizontal road tile at `(2, 2)`. -/
def ewPlacedGrid : GridState :=
  (setTile sampleGrid 2 2 "road_ew" Layer.ground).1

/-- The sample grid with a ground tile and an object at `(1, 1)`
(`asset_0` is a plain ground sprite, `asset_8` is a building). -/
def occupiedGrid : GridState :=
  (setTile (setTile sampleGrid 1 1 "asset_0" Layer.ground).1 1 1 "asset_8" Layer.object).1

/-- The sample grid with two disconnected single-tile road islands. -/
def twoIslandGrid : GridState :=
  (setTile (setTile sampleGrid 1 1 "road_ew" Layer.ground).1 8 8 "road_ew" Layer.ground).1

/-- A 2x2 serialized map (cells are irrelevant to canvas geometry). -/
def sampleMap : GameMap :=
  { width := 2, height := 2
    ground := [[Option.none, Option.none], [Option.none, Option.none]]
    objects := [[Option.none, Option.none], [Option.none, Option.none]] }

/-! ### Claim-facing specification notions -/

/-- 4-directional grid adjacency (no diagonals): Manhattan distance one. -/
def adjacent (p q : Pos) : Prop :=
  (p.1 - q.1).natAbs + (p.2 - q.2).natAbs = 1

instance (p q : Pos) : Decidable (adjacent p q) := by
  unfold adjacent; infer_instance

/-- Reachability inside a tile set under 4-directional adjacency. -/
def roadReach (road : List Pos) (p q : Pos) : Prop :=
  Relation.ReflTransGen (fun a b => b ∈ road ∧ adjacent a b) p q

/-- The consecutive step vectors of a route (for counting bends). -/
def pathSteps (l : List Pos) : List Pos :=
  (l.zip l.tail).map (fun pq => (pq.2.1 - pq.1.1, pq.2.2 - pq.1.2))

/-- Specification-side exact-match resolver, following the spec's words
(section 4.2): scan the catalog in order, restricted to ground-category
connectivity-bearing (road) entries, and return the first whose connects
*set* equals the required set; `none` if there is no such entry.  This is the
comparison point for the refinement claim about `findMatchingRoadSprite`. -/
def findExactMatchSpec (g : GridState) (directions : List Direction) : Option Sprite :=
  g.metadata.sprites.find? (fun s =>
    decide (s.category = SpriteCategory.ground) && isRoadSprite s &&
      decide ((connectsOf s).toFinset = directions.toFinset))

/-- A single legitimate upgrade between catalog sprites: the new sprite is a
catalog road sprite whose connects set is the old one plus exactly one new
direction. -/
def upgradeStep (meta : SpritesheetMetadata) (s t : Sprite) : Prop :=
  t ∈ meta.sprites ∧ isRoadSprite t = true ∧
    ∃ d : Direction, d ∉ (connectsOf s).toFinset ∧
      (connectsOf t).toFinset = insert d (connectsOf s).toFinset

/-- Frame relation for network repair: dimensions and catalog unchanged, and
every cell that initially holds a road tile still holds one afterwards,
related to the original by a (possibly empty) chain of single-direction
legitimate upgrades. -/
def roadEvolves (g g' : GridState) : Prop :=
  g'.metadata = g.metadata ∧ g'.width = g.width ∧ g'.height = g.height ∧
    ∀ x y : Int, isRoadAt g x y = true →
      ∃ cell cell' s s', getTile g x y Layer.ground = Option.some cell ∧
        getSprite g cell.assetId = Option.some s ∧
        getTile g' x y Layer.ground = Option.some cell' ∧
        getSprite g' cell'.assetId = Option.some s' ∧
        Relation.ReflTransGen (upgradeStep g.metadata) s s'

/-! ## Theorems -/

/-- Claim C7: a `setTile` call with out-of-bounds coordinates and a valid
tile id fails with the out-of-bounds error and does not alter any cell; more
generally, every failed `setTile` call returns the grid exactly as it was. -/
theorem setTile_failure_leaves_grid (g : GridState) (x y : Int) (a : String) (l : Layer) :
    ((setTile g x y a l).2.isSome = true → (setTile g x y a l).1 = g) ∧
    ((getSprite g a).isSome = true → outOfBounds g x y →
      setTile g x y a l =
        (g, Option.some ("Position out of bounds: (" ++ toString x ++ ", " ++
          toString y ++ ")"))) := by
  constructor
  · intro h
    unfold setTile at h ⊢
    cases hs : getSpriteOrThrow g a with
    | error e => simp [hs]
    | ok s =>
      simp only [hs] at h ⊢
      by_cases hb : outOfBounds g x y
      · simp [hb]
      · simp only [if_neg hb] at h
        cases l <;> simp at h
  · intro hsprite hoob
    unfold setTile getSpriteOrThrow
    cases hg : getSprite g a with
    | none => rw [hg] at hsprite; simp at hsprite
    | some s => simp [hg, hoob]

/-- Witness for C7 at the concrete input `(-1, 0)` with the valid id
`road_ew` on the sample grid. -/
theorem setTile_failure_leaves_grid_witness :
    (getSprite sampleGrid "road_ew").isSome = true ∧ outOfBounds sampleGrid (-1) 0 ∧
      setTile sampleGrid (-1) 0 "road_ew" Layer.ground =
        (sampleGrid, Option.some ("Position out of bounds: (-1, 0)")) :=
  ⟨by decide, by decide,
    (setTile_failure_leaves_grid sampleGrid (-1) 0 "road_ew" Layer.ground).2
      (by decide) (by decide)⟩

/-- Claim C9: `setTile` validates the sprite id before the bounds: an unknown
id always produces the unknown-sprite error and an unchanged grid, for all
coordinates (in particular out-of-bounds ones). -/
theorem setTile_unknown_takes_precedence (g : GridState) (x y : Int) (a : String)
    (l : Layer) (h : getSprite g a = Option.none) :
    setTile g x y a l = (g, Option.some ("Unknown sprite: " ++ a)) := by
  unfold setTile getSpriteOrThrow
  rw [h]

/-- Witness for C9: unknown id and out-of-bounds coordinates together still
yield the unknown-sprite error. -/
theorem setTile_unknown_takes_precedence_witness :
    getSprite sampleGrid "bogus" = Option.none ∧ outOfBounds sampleGrid (-1) 0 ∧
      setTile sampleGrid (-1) 0 "bogus" Layer.ground =
        (sampleGrid, Option.some ("Unknown sprite: bogus")) :=
  ⟨by decide, by decide,
    setTile_unknown_takes_precedence sampleGrid (-1) 0 "bogus" Layer.ground (by decide)⟩

/-- Claim C2: once a previous `drawRoad` invocation of the same tool instance
has placed road tiles (`tracker.tilesPlaced > 0`), any invocation whose two
endpoints are both neither on nor 4-adjacent to a tracked road tile fails and
leaves the grid (and the tracker) completely unchanged. -/
theorem drawRoad_gating_no_side_effects (g : GridState) (tracker : RoadNetworkTracker)
    (fromX fromY toX toY : Int)
    (h1 : 0 < tracker.tilesPlaced)
    (h2 : isPointOnOrAdjacentToRoad g fromX fromY tracker.roadTiles = false)
    (h3 : isPointOnOrAdjacentToRoad g toX toY tracker.roadTiles = false) :
    (drawRoadExec g tracker fromX fromY toX toY).1 = g ∧
    (drawRoadExec g tracker fromX fromY toX toY).2.1 = tracker ∧
    (drawRoadExec g tracker fromX fromY toX toY).2.2.success = false := by
  unfold drawRoadExec
  by_cases hb : outOfBounds g fromX fromY ∨ outOfBounds g toX toY
  · simp [hb]
  · simp [hb, h1, h2, h3]

/-- Witness for C2: a tracker with one placed road at `(0, 0)` rejects a
route from `(5, 5)` to `(8, 8)` without touching the grid. -/
theorem drawRoad_gating_no_side_effects_witness :
    0 < sampleTracker.tilesPlaced ∧
    isPointOnOrAdjacentToRoad sampleGrid 5 5 sampleTracker.roadTiles = false ∧
    isPointOnOrAdjacentToRoad sampleGrid 8 8 sampleTracker.roadTiles = false ∧
    ((drawRoadExec sampleGrid sampleTracker 5 5 8 8).1 = sampleGrid ∧
      (drawRoadExec sampleGrid sampleTracker 5 5 8 8).2.1 = sampleTracker ∧
      (drawRoadExec sampleGrid sampleTracker 5 5 8 8).2.2.success = false) :=
  ⟨by decide, by decide, by decide,
    drawRoad_gating_no_side_effects sampleGrid sampleTracker 5 5 8 8
      (by decide) (by decide) (by decide)⟩

/-- Claim C10: `placeAsset` refuses to overwrite an occupied object-layer
cell: whenever the resolved target layer is the object layer and the object
cell at the position is non-null, the call fails and the grid (both layers)
is returned unchanged. -/
theorem placeAsset_refuses_occupied (g : GridState) (x y : Int) (assetId : String)
    (layerParam : Option Layer)
    (hocc : getTile g x y Layer.object ≠ Option.none)
    (htarget : layerParam = Option.some Layer.object ∨
      (layerParam = Option.none ∧
        ∀ s, getSprite g assetId = Option.some s → s.placement.layer = Layer.object)) :
    (placeAssetExec g x y assetId layerParam).1 = g ∧
    (placeAssetExec g x y assetId layerParam).2.success = false := by
  have hib : ¬ outOfBounds g x y := by
    intro hoob
    apply hocc
    unfold getTile
    rw [if_pos hoob]
  unfold placeAssetExec
  rw [if_neg hib]
  cases hs : getSprite g assetId with
  | none => simp
  | some sprite =>
    have htl : layerParam.getD sprite.placement.layer = Layer.object := by
      rcases htarget with h | ⟨h, hall⟩
      · rw [h]; rfl
      · rw [h]
        exact hall sprite hs
    simp only [htl]
    by_cases hg : getTile g x y Layer.ground = Option.none
    · simp [hg]
    · simp only [true_and, if_neg hg, if_true]
      cases ho : getTile g x y Layer.object with
      | none => exact absurd ho hocc
      | some existing => simp [ho]

/-- Witness for C10: placing `asset_12` (explicitly on the object layer) at
the already-occupied `(1, 1)` of `occupiedGrid` fails without side effects. -/
theorem placeAsset_refuses_occupied_witness :
    getTile occupiedGrid 1 1 Layer.object ≠ Option.none ∧
    ((placeAssetExec occupiedGrid 1 1 "asset_12" (Option.some Layer.object)).1 =
        occupiedGrid ∧
      (placeAssetExec occupiedGrid 1 1 "asset_12" (Option.some Layer.object)).2.success =
        false) :=
  ⟨by decide,
    placeAsset_refuses_occupied occupiedGrid 1 1 "asset_12" (Option.some Layer.object)
      (by decide) (Or.inl rfl)⟩

/-- Claim C1 (divergence witness): over the catalog built by
`buildLayoutSlots`, after the horizontal path tile (connects exactly east and
west) is placed at `(2, 2)`, upgrading it with the new direction north does
*not* produce an east-west-north T-junction: the layout provides no sprite
with connects set `{east, west, north}` (its only T-junction faces south), so
`updateAdjacentRoad` reports no upgrade and the original 2-direction tile
stays in place - contradicting the spec's required behaviour. -/
theorem updateAdjacentRoad_north_leaves_horizontal_tile :
    getTile ewPlacedGrid 2 2 Layer.ground =
      Option.some { assetId := "road_ew", layer := Layer.ground } ∧
    (getSprite ewPlacedGrid "road_ew").map connectsOf =
      Option.some [Direction.east, Direction.west] ∧
    findMatchingRoadSprite ewPlacedGrid
      [Direction.east, Direction.west, Direction.north] = Option.none ∧
    (updateAdjacentRoad ewPlacedGrid 2 2 Direction.north).2 = false ∧
    getTile (updateAdjacentRoad ewPlacedGrid 2 2 Direction.north).1 2 2 Layer.ground =
      Option.some { assetId := "road_ew", layer := Layer.ground } := by
  refine ⟨by decide, by decide, by decide, by decide, by decide⟩

/-- Claim C8 (counterexample): the rendered canvas width is *not* always
`gridWidth * tileSize * scale`: with `tileSize = 10` and `scale = 1/4` the
per-tile rounding (`Math.round(10 * 0.25) = 3`) makes a 2-tile-wide map
render 6 pixels wide, not 5. -/
theorem renderCanvasDims_not_exact :
    ¬ (((renderCanvasDims sampleMap 10 (1 / 4)).width : ℚ) =
        ((sampleMap.width : ℚ) * 10 * (1 / 4))) := by
  norm_num [renderCanvasDims, jsRound, sampleMap, Rat.floor_def']

/-- Claim C8 (amended): the canvas is `gridWidth * round(tileSize * scale)`
by `gridHeight * round(tileSize * scale)` pixels (JS `Math.round`); whenever
`tileSize * scale` is an integer this equals `gridWidth * tileSize * scale`
by `gridHeight * tileSize * scale` exactly. -/
theorem renderCanvasDims_exact_when_integral (map : GameMap) (tileSize : Int) (scale : ℚ)
    (h : ∃ n : Int, (tileSize : ℚ) * scale = (n : ℚ)) :
    (renderCanvasDims map tileSize scale).width = map.width * jsRound ((tileSize : ℚ) * scale) ∧
    (renderCanvasDims map tileSize scale).height = map.height * jsRound ((tileSize : ℚ) * scale) ∧
    ((renderCanvasDims map tileSize scale).width : ℚ) = (map.width : ℚ) * tileSize * scale ∧
    ((renderCanvasDims map tileSize scale).height : ℚ) = (map.height : ℚ) * tileSize * scale := by
  obtain ⟨n, hn⟩ := h
  have hround : jsRound ((tileSize : ℚ) * scale) = n := by
    unfold jsRound
    rw [hn]
    have h1 : n ≤ ((n : ℚ) + 1 / 2).floor := by
      rw [Rat.le_floor]
      linarith
    have h2 : ((n : ℚ) + 1 / 2).floor < n + 1 := by
      by_contra hc
      push_neg at hc
      have := Rat.le_floor.mp hc
      push_cast at this
      linarith
    omega
  refine ⟨rfl, rfl, ?_, ?_⟩
  · show ((map.width * jsRound ((tileSize : ℚ) * scale) : Int) : ℚ) = _
    rw [hround]
    push_cast
    rw [mul_assoc, hn]
  · show ((map.height * jsRound ((tileSize : ℚ) * scale) : Int) : ℚ) = _
    rw [hround]
    push_cast
    rw [mul_assoc, hn]

/-- Witness for the amended C8 at `tileSize = 10`, `scale = 1/2` (so
`tileSize * scale = 5` is integral) on the 2x2 sample map. -/
theorem renderCanvasDims_exact_when_integral_witness :
    (∃ n : Int, ((10 : Int) : ℚ) * (1 / 2) = (n : ℚ)) ∧
    ((renderCanvasDims sampleMap 10 (1 / 2)).width : ℚ) =
      (sampleMap.width : ℚ) * 10 * (1 / 2) :=
  ⟨⟨5, by norm_num⟩,
    (renderCanvasDims_exact_when_integral sampleMap 10 (1 / 2) ⟨5, by norm_num⟩).2.2.1⟩

/-- The head of a filtered list is the first element satisfying the filter. -/
theorem head_of_filter_eq_find {α : Type} (p : α → Bool) (l : List α) :
    (l.filter p).head? = l.find? p := by
  induction l with
  | nil => rfl
  | cons a t ih =>
    cases h : p a
    · simp [List.filter_cons, List.find?_cons, h, ih]
    · simp [List.filter_cons, List.find?_cons, h]

/-- `find?` only inspects members, so pointwise-equal predicates agree. -/
theorem find_congr_on_mem {α : Type} {p q : α → Bool} {l : List α}
    (h : ∀ a ∈ l, p a = q a) : l.find? p = l.find? q := by
  induction l with
  | nil => rfl
  | cons a t ih =>
    have ha := h a (List.mem_cons_self a t)
    rw [List.find?_cons, List.find?_cons, ha]
    cases hq : q a
    · exact ih (fun b hb => h b (List.mem_cons_of_mem a hb))
    · rfl

/-- For duplicate-free lists, the code's test (equal lengths plus membership
of every requested element) is exactly set equality. -/
theorem length_and_subset_iff_toFinset_eq {α : Type} [DecidableEq α]
    {connects directions : List α} (hc : connects.Nodup) (hd : directions.Nodup) :
    (connects.length = directions.length ∧ ∀ d ∈ directions, d ∈ connects) ↔
      connects.toFinset = directions.toFinset := by
  constructor
  · rintro ⟨hlen, hsub⟩
    have hsubset : directions.toFinset ⊆ connects.toFinset := by
      intro d hdmem
      exact List.mem_toFinset.mpr (hsub d (List.mem_toFinset.mp hdmem))
    have hcard : connects.toFinset.card ≤ directions.toFinset.card := by
      rw [List.toFinset_card_of_nodup hc, List.toFinset_card_of_nodup hd, hlen]
    exact (Finset.eq_of_subset_of_card_le hsubset hcard).symm
  · intro heq
    refine ⟨?_, ?_⟩
    · rw [← List.toFinset_card_of_nodup hc, ← List.toFinset_card_of_nodup hd, heq]
    · intro d hdm
      have hmem : d ∈ directions.toFinset := List.mem_toFinset.mpr hdm
      rw [← heq] at hmem
      exact List.mem_toFinset.mp hmem

/-- Claim C5: for a duplicate-free required direction set (over a catalog
whose connects lists are sets, as specified), `findMatchingRoadSprite` is
exactly the spec's resolver: the first ground-category road sprite in catalog
order whose connects set equals the required set, and `none` when no such
sprite exists.  First match wins deterministically by construction. -/
theorem findMatchingRoadSprite_eq_spec (g : GridState) (directions : List Direction)
    (h1 : directions.Nodup)
    (h2 : ∀ s ∈ g.metadata.sprites, (connectsOf s).Nodup) :
    findMatchingRoadSprite g directions = findExactMatchSpec g directions := by
  unfold findMatchingRoadSprite getSpritesWithConnections findExactMatchSpec
  rw [List.filter_filter, head_of_filter_eq_find]
  apply find_congr_on_mem
  intro s hs
  have hiff := length_and_subset_iff_toFinset_eq (h2 s hs) h1
  rw [Bool.eq_iff_iff]
  simp only [Bool.and_eq_true, decide_eq_true_eq, List.all_eq_true]
  constructor
  · rintro ⟨⟨hcat, hroad⟩, hlen, hall⟩
    exact ⟨⟨hcat, hroad⟩, hiff.mp ⟨hlen, fun d hd => hall d hd⟩⟩
  · rintro ⟨⟨hcat, hroad⟩, hfin⟩
    obtain ⟨hlen, hsub⟩ := hiff.mpr hfin
    exact ⟨⟨hcat, hroad⟩, hlen, fun d hd => hsub d hd⟩

/-- Witness for C5 on the layout catalog with the required set
`{north, east}`. -/
theorem findMatchingRoadSprite_eq_spec_witness :
    ([Direction.north, Direction.east] : List Direction).Nodup ∧
    (∀ s ∈ sampleGrid.metadata.sprites, (connectsOf s).Nodup) ∧
    findMatchingRoadSprite sampleGrid [Direction.north, Direction.east] =
      findExactMatchSpec sampleGrid [Direction.north, Direction.east] :=
  ⟨by decide, by decide,
    findMatchingRoadSprite_eq_spec sampleGrid [Direction.north, Direction.east]
      (by decide) (by decide)⟩

/-- Closed form of the loop embedding: it enumerates
`a, a + s, a + 2s, ...` for `(b - a).natAbs` steps, `s` the sign of `b - a`. -/
theorem stepsTowardAux_eq : ∀ (n : Nat) (a b : Int), (b - a).natAbs = n →
    stepsTowardAux n a b =
      (List.range n).map (fun i : Nat => a + (b - a).sign * (i : Int)) := by
  intro n
  induction n with
  | zero =>
    intro a b _
    rfl
  | succ m ih =>
    intro a b h
    have hne : a ≠ b := by omega
    rw [stepsTowardAux, if_neg hne]
    have ha' : (b - (if a < b then a + 1 else a - 1)).natAbs = m := by
      by_cases hab : a < b
      · rw [if_pos hab]; omega
      · rw [if_neg hab]; omega
    rw [ih _ b ha', List.range_succ_eq_map, List.map_cons, List.map_map]
    refine congrArg₂ _ (by simp) ?_
    apply List.map_congr_left
    intro i hi
    have him : i < m := List.mem_range.mp hi
    simp only [Function.comp]
    by_cases hab : a < b
    · have hs1 : (b - a).sign = 1 := Int.sign_eq_one_of_pos (by omega)
      have hs2 : (b - (if a < b then a + 1 else a - 1)).sign = 1 := by
        rw [if_pos hab]
        exact Int.sign_eq_one_of_pos (by omega)
      rw [if_pos hab] at hs2 ⊢
      rw [hs1, hs2]
      push_cast
      ring
    · have hblt : b < a := by omega
      have hs1 : (b - a).sign = -1 := Int.sign_eq_neg_one_of_neg (by omega)
      have hs2 : (b - (if a < b then a + 1 else a - 1)).sign = -1 := by
        rw [if_neg hab]
        exact Int.sign_eq_neg_one_of_neg (by omega)
      rw [if_neg hab] at hs2 ⊢
      rw [hs1, hs2]
      push_cast
      ring

/-- Closed form of `stepsToward`. -/
theorem stepsToward_eq (a b : Int) :
    stepsToward a b =
      (List.range (b - a).natAbs).map (fun i : Nat => a + (b - a).sign * (i : Int)) :=
  stepsTowardAux_eq _ a b rfl

/-- Length of the Manhattan route. -/
theorem generateManhattanPath_length (fx fy tx ty : Int) :
    (generateManhattanPath fx fy tx ty).length =
      (tx - fx).natAbs + (ty - fy).natAbs + 1 := by
  unfold generateManhattanPath
  rw [stepsToward_eq, stepsToward_eq]
  simp only [List.length_append, List.length_map, List.length_range, List.length_cons,
    List.length_nil]

/-- Route points on the horizontal leg. -/
theorem manhattanPath_getElem_horiz (fx fy tx ty : Int) (i : Nat)
    (h : i < (tx - fx).natAbs) :
    (generateManhattanPath fx fy tx ty)[i]? =
      Option.some (fx + (tx - fx).sign * (i : Int), fy) := by
  unfold generateManhattanPath
  rw [stepsToward_eq, List.append_assoc, List.getElem?_append,
    if_pos (by simpa using h), List.getElem?_map, List.getElem?_map,
    List.getElem?_range h]
  rfl

/-- Route points on the vertical leg (including the final endpoint). -/
theorem manhattanPath_getElem_vert (fx fy tx ty : Int) (i : Nat)
    (h1 : (tx - fx).natAbs ≤ i) (h2 : i ≤ (tx - fx).natAbs + (ty - fy).natAbs) :
    (generateManhattanPath fx fy tx ty)[i]? =
      Option.some (tx, fy + (ty - fy).sign * ((i - (tx - fx).natAbs : Nat) : Int)) := by
  unfold generateManhattanPath
  rw [stepsToward_eq, stepsToward_eq, List.append_assoc, List.getElem?_append,
    if_neg (by simp; omega)]
  simp only [List.length_map, List.length_range]
  by_cases hj : i - (tx - fx).natAbs < (ty - fy).natAbs
  · rw [List.getElem?_append, if_pos (by simpa using hj), List.getElem?_map,
      List.getElem?_map, List.getElem?_range hj]
    rfl
  · have hj' : i - (tx - fx).natAbs = (ty - fy).natAbs := by omega
    rw [List.getElem?_append_right (by simpa using not_lt.mp hj)]
    simp only [List.length_map, List.length_range]
    have h0 : i - (tx - fx).natAbs - (ty - fy).natAbs = 0 := by omega
    rw [h0, hj']
    simp only [List.getElem?_cons_zero, Option.some.injEq, Prod.mk.injEq]
    exact ⟨trivial, by linarith [Int.sign_mul_natAbs (ty - fy)]⟩

/-- The `n`-th step vector of a route is the difference of consecutive route
points. -/
theorem pathSteps_getElem (l : List Pos) (n : Nat) (hn : n + 1 < l.length)
    (p q : Pos) (hp : l[n]? = Option.some p) (hq : l[n + 1]? = Option.some q) :
    (pathSteps l)[n]? = Option.some (q.1 - p.1, q.2 - p.2) := by
  have h2 : n < (pathSteps l).length := by
    simp only [pathSteps, List.length_map, List.length_zip, List.length_tail]
    omega
  rw [List.getElem?_eq_getElem h2]
  have hvp := Option.some.inj
    ((List.getElem?_eq_getElem (show n < l.length by omega)).symm.trans hp)
  have hvq := Option.some.inj
    ((List.getElem?_eq_getElem (show n + 1 < l.length by omega)).symm.trans hq)
  simp only [pathSteps, List.getElem_map, List.getElem_zip, List.getElem_tail]
  rw [hvp, hvq]

/-- Claim C6: the Manhattan route is deterministic and L-shaped: it has
exactly `|fromX - toX| + |fromY - toY| + 1` points, starts at the start
point, ends at the end point, first varies `x` toward `toX` at `y = fromY`
(conjunct 4), then varies `y` toward `toY` at `x = toX` (conjunct 5),
consecutive points are 4-adjacent, and the step vectors form at most two
constant blocks (horizontal then vertical) - at most one bend. -/
theorem generateManhattanPath_spec (fromX fromY toX toY : Int) :
    (generateManhattanPath fromX fromY toX toY).length =
        (toX - fromX).natAbs + (toY - fromY).natAbs + 1 ∧
    (generateManhattanPath fromX fromY toX toY).head? = Option.some (fromX, fromY) ∧
    (generateManhattanPath fromX fromY toX toY).getLast? = Option.some (toX, toY) ∧
    (∀ i : Nat, i < (toX - fromX).natAbs →
      (generateManhattanPath fromX fromY toX toY)[i]? =
        Option.some (fromX + (toX - fromX).sign * (i : Int), fromY)) ∧
    (∀ i : Nat, (toX - fromX).natAbs ≤ i →
      i ≤ (toX - fromX).natAbs + (toY - fromY).natAbs →
      (generateManhattanPath fromX fromY toX toY)[i]? =
        Option.some (toX, fromY + (toY - fromY).sign *
          ((i - (toX - fromX).natAbs : Nat) : Int))) ∧
    List.Chain' adjacent (generateManhattanPath fromX fromY toX toY) ∧
    pathSteps (generateManhattanPath fromX fromY toX toY) =
      List.replicate (toX - fromX).natAbs ((toX - fromX).sign, 0) ++
        List.replicate (toY - fromY).natAbs (0, (toY - fromY).sign) := by
  have hlen := generateManhattanPath_length fromX fromY toX toY
  have hA := manhattanPath_getElem_horiz fromX fromY toX toY
  have hB := manhattanPath_getElem_vert fromX fromY toX toY
  have hAB : ∀ i : Nat, i ≤ (toX - fromX).natAbs →
      (generateManhattanPath fromX fromY toX toY)[i]? =
        Option.some (fromX + (toX - fromX).sign * (i : Int), fromY) := by
    intro i hi
    rcases lt_or_eq_of_le hi with hlt | heq
    · exact hA i hlt
    · rw [heq, hB _ le_rfl (Nat.le_add_right _ _)]
      simp only [Nat.sub_self, Nat.cast_zero, mul_zero, add_zero,
        Option.some.injEq, Prod.mk.injEq]
      exact ⟨by linarith [Int.sign_mul_natAbs (toX - fromX)], trivial⟩
  have hval : ∀ (j : Nat) (hj : j < (generateManhattanPath fromX fromY toX toY).length)
      (v : Pos), (generateManhattanPath fromX fromY toX toY)[j]? = Option.some v →
      (generateManhattanPath fromX fromY toX toY).get ⟨j, hj⟩ = v := by
    intro j hj v hv
    rw [List.get_eq_getElem]
    exact Option.some.inj ((List.getElem?_eq_getElem hj).symm.trans hv)
  refine ⟨hlen, ?_, ?_, hA, hB, ?_, ?_⟩
  · rw [List.head?_eq_getElem?]
    have h0 := hAB 0 (Nat.zero_le _)
    simpa using h0
  · unfold generateManhattanPath
    exact List.getLast?_concat _
  · rw [List.chain'_iff_get]
    intro i hi
    rw [hlen] at hi
    by_cases hcase : i + 1 ≤ (toX - fromX).natAbs
    · rw [hval i (by omega) _ (hAB i (by omega)), hval (i + 1) (by omega) _ (hAB _ hcase)]
      have hne : toX - fromX ≠ 0 := by omega
      rcases Int.lt_trichotomy (toX - fromX) 0 with hs | hs | hs
      · have := Int.sign_eq_neg_one_of_neg hs
        simp only [adjacent, this]
        omega
      · exact absurd hs hne
      · have := Int.sign_eq_one_of_pos hs
        simp only [adjacent, this]
        omega
    · have hge : (toX - fromX).natAbs ≤ i := by omega
      rw [hval i (by omega) _ (hB i hge (by omega)),
        hval (i + 1) (by omega) _ (hB (i + 1) (by omega) (by omega))]
      have hne : toY - fromY ≠ 0 := by omega
      rcases Int.lt_trichotomy (toY - fromY) 0 with hs | hs | hs
      · have := Int.sign_eq_neg_one_of_neg hs
        simp only [adjacent, this]
        omega
      · exact absurd hs hne
      · have := Int.sign_eq_one_of_pos hs
        simp only [adjacent, this]
        omega
  · apply List.ext_getElem?
    intro n
    have hsteplen : (pathSteps (generateManhattanPath fromX fromY toX toY)).length =
        (toX - fromX).natAbs + (toY - fromY).natAbs := by
      simp only [pathSteps, List.length_map, List.length_zip, List.length_tail, hlen]
      omega
    by_cases hn : n < (toX - fromX).natAbs + (toY - fromY).natAbs
    · rw [List.getElem?_append]
      by_cases hh : n + 1 ≤ (toX - fromX).natAbs
      · rw [if_pos (by simpa using hh)]
        rw [pathSteps_getElem _ n (by omega) _ _ (hAB n (by omega)) (hAB (n + 1) hh)]
        rw [List.getElem?_replicate, if_pos (by omega)]
        simp only [Option.some.injEq, Prod.mk.injEq]
        constructor
        · push_cast
          ring
        · ring
      · rw [if_neg (by simp only [List.length_replicate]; omega)]
        have hge : (toX - fromX).natAbs ≤ n := by omega
        rw [pathSteps_getElem _ n (by omega) _ _ (hB n hge (by omega))
          (hB (n + 1) (by omega) (by omega))]
        rw [List.getElem?_replicate, if_pos (by simpa using (by omega : n -
          (toX - fromX).natAbs < (toY - fromY).natAbs))]
        simp only [Option.some.injEq, Prod.mk.injEq]
        constructor
        · ring
        · have hc : ((n + 1 - (toX - fromX).natAbs : Nat) : Int) =
              ((n - (toX - fromX).natAbs : Nat) : Int) + 1 := by omega
          rw [hc]
          ring
    · rw [List.getElem?_eq_none (by omega), List.getElem?_eq_none (by simp; omega)]

/-! ### Flood-fill correctness (claim C3) -/

/-- The neighbour list realizes 4-directional adjacency. -/
theorem mem_neighbors_iff_adjacent (p q : Pos) : q ∈ neighbors p ↔ adjacent p q := by
  rcases p with ⟨px, py⟩
  rcases q with ⟨qx, qy⟩
  simp only [neighbors, adjacent, List.mem_cons, List.not_mem_nil, Prod.mk.injEq, or_false]
  constructor
  · rintro (⟨h1, h2⟩ | ⟨h1, h2⟩ | ⟨h1, h2⟩ | ⟨h1, h2⟩) <;> subst h1 <;> subst h2 <;> simp
  · intro h
    omega

/-- 4-directional adjacency is symmetric. -/
theorem adjacent_symm {p q : Pos} (h : adjacent p q) : adjacent q p := by
  unfold adjacent at h ⊢
  omega

/-- Reachability within a road set stays within the road set. -/
theorem roadReach_mem {road : List Pos} {s p : Pos} (h : roadReach road s p)
    (hs : s ∈ road) : p ∈ road := by
  induction h with
  | refl => exact hs
  | tail _ hstep _ => exact hstep.1

/-- Reachability extends along one adjacency step into the road set. -/
theorem roadReach_step {road : List Pos} {s p q : Pos} (h : roadReach road s p)
    (hadj : adjacent p q) (hq : q ∈ road) : roadReach road s q :=
  h.tail ⟨hq, hadj⟩

/-- Every point reachable from a member of a closed set is in the set. -/
theorem roadReach_mem_closed {road S : List Pos}
    (hS : ∀ p ∈ S, ∀ q, adjacent p q → q ∈ road → q ∈ S)
    {s p : Pos} (hs : s ∈ S) (h : roadReach road s p) : p ∈ S := by
  induction h with
  | refl => exact hs
  | tail _ hstep ih => exact hS _ ih _ hstep.2 hstep.1

/-- If the endpoint of a road walk lies in a closed set, so does the start
(closedness is symmetric because adjacency is). -/
theorem roadReach_mem_closed_back {road S : List Pos}
    (hS : ∀ p ∈ S, ∀ q, adjacent p q → q ∈ road → q ∈ S)
    {s p : Pos} (hsr : s ∈ road) (h : roadReach road s p) (hp : p ∈ S) : s ∈ S := by
  induction h with
  | refl => exact hp
  | tail hr hstep ih =>
    exact ih (hS _ hp _ (adjacent_symm hstep.2) (roadReach_mem hr hsr))

/-- Road walks reverse between members of the road set. -/
theorem roadReach_symm {road : List Pos} {s p : Pos} (hs : s ∈ road)
    (h : roadReach road s p) : roadReach road p s := by
  induction h with
  | refl => exact Relation.ReflTransGen.refl
  | tail hr hstep ih =>
    exact Relation.ReflTransGen.head
      ⟨roadReach_mem hr hs, adjacent_symm hstep.2⟩ ih

/-- A road walk starting inside an exact connected component stays inside the
component, and is also a walk of the component itself. -/
theorem roadReach_restrict {road I : List Pos} {s : Pos}
    (hchar : ∀ x, x ∈ I ↔ x ∈ road ∧ roadReach road s x)
    {p : Pos} (hp : p ∈ I) :
    ∀ {q : Pos}, roadReach road p q → q ∈ I ∧ roadReach I p q := by
  intro q h
  induction h with
  | refl => exact ⟨hp, Relation.ReflTransGen.refl⟩
  | tail _ hstep ih =>
    rcases ih with ⟨haI, hreachI⟩
    have hsb := ((hchar _).mp haI).2.tail hstep
    have hbI : _ ∈ I := (hchar _).mpr ⟨hstep.1, hsb⟩
    exact ⟨hbI, hreachI.tail ⟨hbI, hstep.2⟩⟩

/-- Removing a fresh road tile from the unvisited set decreases the
unvisited count by exactly one. -/
theorem filter_cons_visited_length :
    ∀ {road : List Pos} {visited : List Pos} {c : Pos}, road.Nodup → c ∈ road →
      c ∉ visited →
      (road.filter (fun p => !decide (p ∈ c :: visited))).length + 1 =
        (road.filter (fun p => !decide (p ∈ visited))).length := by
  intro road
  induction road with
  | nil => intro visited c _ hc; cases hc
  | cons a t ih =>
    intro visited c hnd hc hcv
    have hat : a ∉ t := (List.nodup_cons.mp hnd).1
    have htnd : t.Nodup := (List.nodup_cons.mp hnd).2
    rw [List.filter_cons, List.filter_cons]
    by_cases hac : a = c
    · subst hac
      have heq : List.filter (fun p => !decide (p ∈ a :: visited)) t =
          List.filter (fun p => !decide (p ∈ visited)) t := by
        apply List.filter_congr
        intro p hp
        have hpa : ¬ p = a := fun h => hat (h ▸ hp)
        simp [List.mem_cons, hpa]
      have h1 : (!decide (a ∈ a :: visited)) = false := by simp
      have h2 : (!decide (a ∈ visited)) = true := by simp [hcv]
      rw [h1, h2, heq]
      simp
    · have hct : c ∈ t := by
        rcases List.mem_cons.mp hc with h | h
        · exact absurd h.symm hac
        · exact h
      by_cases hav : a ∈ visited
      · have h1 : (!decide (a ∈ c :: visited)) = false := by
          simp [List.mem_cons, hav]
        have h2 : (!decide (a ∈ visited)) = false := by simp [hav]
        rw [h1, h2]
        have h3 := ih htnd hct hcv
        simpa using h3
      · have h1 : (!decide (a ∈ c :: visited)) = true := by
          simp [List.mem_cons, hac, hav]
        have h2 : (!decide (a ∈ visited)) = true := by simp [hav]
        rw [h1, h2]
        have h3 := ih htnd hct hcv
        simp at h3 ⊢
        omega

/-- Full invariant of the BFS inner loop of `getRoadIslands`: given enough
fuel, the returned visited set is the returned island joined with the initial
visited set `V0`; the island consists of fresh road tiles all satisfying the
step-closed predicate `R` (instantiated with reachability from the seed), it
is duplicate-free and extends the accumulated island; the final visited set
is adjacency-closed and absorbs the whole queue. -/
theorem bfsAux_spec (road V0 : List Pos) (R : Pos → Prop)
    (hroadnd : road.Nodup)
    (hR : ∀ p q, R p → adjacent p q → q ∈ road → R q) :
    ∀ (fuel : Nat) (queue visited island : List Pos),
      queue.length + 5 * (road.filter (fun p => !decide (p ∈ visited))).length ≤ fuel →
      (∀ p ∈ queue, p ∈ road) →
      (∀ p ∈ queue, R p) →
      (∀ p, p ∈ visited ↔ p ∈ island ∨ p ∈ V0) →
      (∀ p ∈ island, p ∈ road ∧ p ∉ V0 ∧ R p) →
      island.Nodup →
      (∀ p ∈ visited, ∀ q, adjacent p q → q ∈ road → q ∈ visited ∨ q ∈ queue) →
      ((∀ p, p ∈ (bfsAux road fuel queue visited island).2 ↔
          p ∈ (bfsAux road fuel queue visited island).1 ∨ p ∈ V0) ∧
        (∀ p ∈ (bfsAux road fuel queue visited island).1, p ∈ road ∧ p ∉ V0 ∧ R p) ∧
        (bfsAux road fuel queue visited island).1.Nodup ∧
        (∀ p ∈ (bfsAux road fuel queue visited island).2, ∀ q, adjacent p q →
          q ∈ road → q ∈ (bfsAux road fuel queue visited island).2) ∧
        (∀ p ∈ queue, p ∈ (bfsAux road fuel queue visited island).2) ∧
        (∀ p ∈ island, p ∈ (bfsAux road fuel queue visited island).1)) := by
  intro fuel
  induction fuel with
  | zero =>
    intro queue visited island hfuel hq hqR hvis hisland hnd hclosed
    have hqe : queue = [] := by
      cases queue with
      | nil => rfl
      | cons a t => rw [List.length_cons] at hfuel; omega
    subst hqe
    simp only [bfsAux]
    refine ⟨hvis, hisland, hnd, ?_, by simp, fun p hp => hp⟩
    intro p hp q hadj hq'
    rcases hclosed p hp q hadj hq' with h | h
    · exact h
    · simp at h
  | succ fuel ih =>
    intro queue visited island hfuel hq hqR hvis hisland hnd hclosed
    cases queue with
    | nil =>
      simp only [bfsAux]
      refine ⟨hvis, hisland, hnd, ?_, by simp, fun p hp => hp⟩
      intro p hp q hadj hq'
      rcases hclosed p hp q hadj hq' with h | h
      · exact h
      · simp at h
    | cons c rest =>
      by_cases hcv : c ∈ visited
      · -- Already visited: the head is dropped.
        rw [show bfsAux road (fuel + 1) (c :: rest) visited island =
          bfsAux road fuel rest visited island by rw [bfsAux, if_pos hcv]]
        have hres := ih rest visited island
          (by rw [List.length_cons] at hfuel; omega)
          (fun p hp => hq p (List.mem_cons_of_mem c hp))
          (fun p hp => hqR p (List.mem_cons_of_mem c hp))
          hvis hisland hnd
          (by
            intro p hp q hadj hq'
            rcases hclosed p hp q hadj hq' with h | h
            · exact Or.inl h
            · rcases List.mem_cons.mp h with rfl | h2
              · exact Or.inl hcv
              · exact Or.inr h2)
        refine ⟨hres.1, hres.2.1, hres.2.2.1, hres.2.2.2.1, ?_, hres.2.2.2.2.2⟩
        intro p hp
        rcases List.mem_cons.mp hp with rfl | h2
        · rcases (hvis p).mp hcv with h3 | h3
          · exact (hres.1 p).mpr (Or.inl (hres.2.2.2.2.2 p h3))
          · exact (hres.1 p).mpr (Or.inr h3)
        · exact hres.2.2.2.2.1 p h2
      · -- Fresh tile: visit it and enqueue its fresh road neighbours.
        have hcroad : c ∈ road := hq c (List.mem_cons_self c rest)
        have hcR : R c := hqR c (List.mem_cons_self c rest)
        have hcV0 : c ∉ V0 := fun h => hcv ((hvis c).mpr (Or.inr h))
        have hcisl : c ∉ island := fun h => hcv ((hvis c).mpr (Or.inl h))
        rw [show bfsAux road (fuel + 1) (c :: rest) visited island =
          bfsAux road fuel
            (rest ++ (neighbors c).filter (fun p =>
              decide (p ∈ road) && !decide (p ∈ c :: visited)))
            (c :: visited) (island ++ [c]) by rw [bfsAux, if_neg hcv]]
        have hfl : ((neighbors c).filter (fun p =>
            decide (p ∈ road) && !decide (p ∈ c :: visited))).length ≤ 4 := by
          have := List.length_filter_le (fun p =>
            decide (p ∈ road) && !decide (p ∈ c :: visited)) (neighbors c)
          simpa [neighbors] using this
        have hdec : (road.filter (fun p => !decide (p ∈ c :: visited))).length + 1 =
            (road.filter (fun p => !decide (p ∈ visited))).length :=
          filter_cons_visited_length hroadnd hcroad hcv
        have hres := ih
          (rest ++ (neighbors c).filter (fun p =>
            decide (p ∈ road) && !decide (p ∈ c :: visited)))
          (c :: visited) (island ++ [c])
          (by
            rw [List.length_append]
            rw [List.length_cons] at hfuel
            omega)
          (by
            intro p hp
            rcases List.mem_append.mp hp with h | h
            · exact hq p (List.mem_cons_of_mem c h)
            · exact (Bool.and_eq_true _ _ |>.mp (List.mem_filter.mp h).2).1
                |> decide_eq_true_eq.mp)
          (by
            intro p hp
            rcases List.mem_append.mp hp with h | h
            · exact hqR p (List.mem_cons_of_mem c h)
            · have hmem := List.mem_filter.mp h
              have hpr : p ∈ road :=
                decide_eq_true_eq.mp (Bool.and_eq_true _ _ |>.mp hmem.2).1
              have hadj : adjacent c p := (mem_neighbors_iff_adjacent c p).mp hmem.1
              exact hR c p hcR hadj hpr)
          (by
            intro p
            rw [List.mem_cons, List.mem_append, List.mem_singleton, hvis p]
            tauto)
          (by
            intro p hp
            rcases List.mem_append.mp hp with h | h
            · exact hisland p h
            · rw [List.mem_singleton.mp h]
              exact ⟨hcroad, hcV0, hcR⟩)
          (by
            rw [List.nodup_append]
            exact ⟨hnd, List.nodup_singleton c, List.disjoint_singleton.mpr hcisl⟩)
          (by
            intro p hp q hadj hq'
            rcases List.mem_cons.mp hp with hpc | h2
            · rw [hpc] at hadj
              by_cases hqv : q ∈ c :: visited
              · exact Or.inl hqv
              · refine Or.inr (List.mem_append.mpr (Or.inr ?_))
                refine List.mem_filter.mpr ⟨(mem_neighbors_iff_adjacent c q).mpr hadj, ?_⟩
                rw [Bool.and_eq_true, decide_eq_true_eq]
                exact ⟨hq', by simpa using hqv⟩
            · rcases hclosed p h2 q hadj hq' with h3 | h3
              · exact Or.inl (List.mem_cons_of_mem c h3)
              · rcases List.mem_cons.mp h3 with hqc | h4
                · rw [hqc]
                  exact Or.inl (List.mem_cons_self c visited)
                · exact Or.inr (List.mem_append.mpr (Or.inl h4)))
        refine ⟨hres.1, hres.2.1, hres.2.2.1, hres.2.2.2.1, ?_, ?_⟩
        · intro p hp
          rcases List.mem_cons.mp hp with rfl | h2
          · exact (hres.1 p).mpr (Or.inl
              (hres.2.2.2.2.2 p (List.mem_append.mpr (Or.inr (List.mem_singleton.mpr rfl)))))
          · exact hres.2.2.2.2.1 p (List.mem_append.mpr (Or.inl h2))
        · intro p hp
          exact hres.2.2.2.2.2 p (List.mem_append.mpr (Or.inl hp))

/-- Full invariant of the outer loop of `getRoadIslands`: given a closed,
duplicate-free visited set inside the road set whose complement is covered by
the remaining seeds, the returned islands are nonempty, duplicate-free, and
fresh; each is an exact connected component (all road tiles reachable from
one of its members); the islands are pairwise disjoint; and together with the
initial visited set they cover the road set. -/
theorem getRoadIslandsAux_spec (road : List Pos) (hnd : road.Nodup) :
    ∀ (seeds visited : List Pos),
      (∀ p ∈ seeds, p ∈ road) →
      (∀ p ∈ visited, p ∈ road) →
      (∀ p ∈ visited, ∀ q, adjacent p q → q ∈ road → q ∈ visited) →
      (∀ p ∈ road, p ∈ visited ∨ p ∈ seeds) →
      ((∀ I ∈ getRoadIslandsAux road seeds visited,
          I.tiles ≠ [] ∧ I.tiles.Nodup ∧ ∀ p ∈ I.tiles, p ∈ road ∧ p ∉ visited) ∧
        (∀ I ∈ getRoadIslandsAux road seeds visited,
          ∃ s, s ∈ I.tiles ∧ ∀ p, p ∈ I.tiles ↔ p ∈ road ∧ roadReach road s p) ∧
        List.Pairwise (fun I J => ∀ p ∈ I.tiles, p ∉ J.tiles)
          (getRoadIslandsAux road seeds visited) ∧
        (∀ p ∈ road, p ∈ visited ∨
          ∃ I ∈ getRoadIslandsAux road seeds visited, p ∈ I.tiles)) := by
  intro seeds
  induction seeds with
  | nil =>
    intro visited _ _ _ hcover
    simp only [getRoadIslandsAux]
    refine ⟨by simp, by simp, by simp, ?_⟩
    intro p hp
    rcases hcover p hp with h | h
    · exact Or.inl h
    · simp at h
  | cons seed rest ih =>
    intro visited hseeds hvisroad hvisclosed hcover
    by_cases hsv : seed ∈ visited
    · rw [show getRoadIslandsAux road (seed :: rest) visited =
        getRoadIslandsAux road rest visited by rw [getRoadIslandsAux, if_pos hsv]]
      exact ih visited (fun p hp => hseeds p (List.mem_cons_of_mem seed hp))
        hvisroad hvisclosed
        (by
          intro p hp
          rcases hcover p hp with h | h
          · exact Or.inl h
          · rcases List.mem_cons.mp h with hps | h2
            · exact Or.inl (hps ▸ hsv)
            · exact Or.inr h2)
    · -- Fresh seed: one complete BFS.
      have hseedroad : seed ∈ road := hseeds seed (List.mem_cons_self seed rest)
      have hbfs := bfsAux_spec road visited (roadReach road seed) hnd
        (fun p q hp hadj hq => hp.tail ⟨hq, hadj⟩)
        (5 * road.length + 1) [seed] visited []
        (by
          have := List.length_filter_le (fun p => !decide (p ∈ visited)) road
          simp only [List.length_singleton]
          omega)
        (by intro p hp; rw [List.mem_singleton.mp hp]; exact hseedroad)
        (by intro p hp; rw [List.mem_singleton.mp hp]; exact Relation.ReflTransGen.refl)
        (by intro p; simp)
        (by simp)
        List.nodup_nil
        (by
          intro p hp q hadj hq'
          exact Or.inl (hvisclosed p hp q hadj hq'))
      obtain ⟨hVchar, hIgood, hInodup, hVclosed, hQin, _⟩ := hbfs
      set r := bfsAux road (5 * road.length + 1) [seed] visited [] with hr
      have hseedV : seed ∈ r.2 := hQin seed (List.mem_singleton.mpr rfl)
      have hseedI : seed ∈ r.1 := by
        rcases (hVchar seed).mp hseedV with h | h
        · exact h
        · exact absurd h hsv
      have hIne : r.1 ≠ [] := List.ne_nil_of_mem hseedI
      have hVsub : ∀ p ∈ visited, p ∈ r.2 := fun p hp => (hVchar p).mpr (Or.inr hp)
      have hchar : ∀ p, p ∈ r.1 ↔ p ∈ road ∧ roadReach road seed p := by
        intro p
        constructor
        · intro hp
          exact ⟨(hIgood p hp).1, (hIgood p hp).2.2⟩
        · rintro ⟨hp, hreach⟩
          have hpV : p ∈ r.2 := roadReach_mem_closed hVclosed hseedV hreach
          rcases (hVchar p).mp hpV with h | h
          · exact h
          · exact absurd (roadReach_mem_closed_back hvisclosed hseedroad hreach h) hsv
      have hV2road : ∀ p ∈ r.2, p ∈ road := by
        intro p hp
        rcases (hVchar p).mp hp with h | h
        · exact (hIgood p h).1
        · exact hvisroad p h
      have hcover2 : ∀ p ∈ road, p ∈ r.2 ∨ p ∈ rest := by
        intro p hp
        rcases hcover p hp with h | h
        · exact Or.inl (hVsub p h)
        · rcases List.mem_cons.mp h with hps | h2
          · exact Or.inl (hps ▸ hseedV)
          · exact Or.inr h2
      have hrest := ih r.2 (fun p hp => hseeds p (List.mem_cons_of_mem seed hp))
        hV2road hVclosed hcover2
      obtain ⟨hrest1, hrest2, hrest3, hrest4⟩ := hrest
      have hstep : getRoadIslandsAux road (seed :: rest) visited =
          boundsOf r.1 :: getRoadIslandsAux road rest r.2 := by
        rw [getRoadIslandsAux, if_neg hsv, ← hr, if_neg hIne]
      rw [hstep]
      have htiles : (boundsOf r.1).tiles = r.1 := rfl
      refine ⟨?_, ?_, ?_, ?_⟩
      · intro I hI
        rcases List.mem_cons.mp hI with hIh | hIt
        · rw [hIh, htiles]
          exact ⟨hIne, hInodup, fun p hp => ⟨(hIgood p hp).1, (hIgood p hp).2.1⟩⟩
        · obtain ⟨h1, h2, h3⟩ := hrest1 I hIt
          exact ⟨h1, h2, fun p hp => ⟨(h3 p hp).1,
            fun hpv => (h3 p hp).2 (hVsub p hpv)⟩⟩
      · intro I hI
        rcases List.mem_cons.mp hI with hIh | hIt
        · rw [hIh, htiles]
          exact ⟨seed, hseedI, hchar⟩
        · exact hrest2 I hIt
      · refine List.Pairwise.cons ?_ hrest3
        intro J hJ p hp hpJ
        rw [htiles] at hp
        exact ((hrest1 J hJ).2.2 p hpJ).2 ((hVchar p).mpr (Or.inl hp))
      · intro p hp
        rcases hcover2 p hp with h | h
        · rcases (hVchar p).mp h with h2 | h2
          · exact Or.inr ⟨boundsOf r.1, List.mem_cons_self _ _, by rw [htiles]; exact h2⟩
          · exact Or.inl h2
        · rcases hrest4 p hp with h2 | h2
          · rcases (hVchar p).mp h2 with h3 | h3
            · exact Or.inr ⟨boundsOf r.1, List.mem_cons_self _ _, by rw [htiles]; exact h3⟩
            · exact Or.inl h3
          · obtain ⟨I, hI, hpI⟩ := h2
            exact Or.inr ⟨I, List.mem_cons_of_mem _ hI, hpI⟩

/-- The row-major position enumeration contains exactly the in-bounds
positions. -/
theorem mem_allPositions (g : GridState) (p : Pos) :
    p ∈ allPositions g ↔ 0 ≤ p.1 ∧ p.1 < g.width ∧ 0 ≤ p.2 ∧ p.2 < g.height := by
  rcases p with ⟨px, py⟩
  unfold allPositions intRange
  simp only [List.mem_flatMap, List.mem_map, List.mem_range, Prod.mk.injEq]
  constructor
  · rintro ⟨y, ⟨ny, hny, rfl⟩, x, ⟨nx, hnx, rfl⟩, rfl, rfl⟩
    refine ⟨by omega, by omega, by omega, by omega⟩
  · rintro ⟨h1, h2, h3, h4⟩
    exact ⟨py, ⟨py.toNat, by omega, by omega⟩, px, ⟨px.toNat, by omega, by omega⟩, rfl, rfl⟩

/-- The road set contains exactly the in-bounds road positions. -/
theorem mem_roadPositionsList (g : GridState) (p : Pos) :
    p ∈ roadPositionsList g ↔
      0 ≤ p.1 ∧ p.1 < g.width ∧ 0 ≤ p.2 ∧ p.2 < g.height ∧
        isRoadAt g p.1 p.2 = true := by
  unfold roadPositionsList
  rw [List.mem_filter, mem_allPositions]
  constructor
  · rintro ⟨⟨h1, h2, h3, h4⟩, h5⟩
    exact ⟨h1, h2, h3, h4, h5⟩
  · rintro ⟨h1, h2, h3, h4, h5⟩
    exact ⟨⟨h1, h2, h3, h4⟩, h5⟩

/-- The road-position list has no duplicates. -/
theorem roadPositionsList_nodup (g : GridState) : (roadPositionsList g).Nodup := by
  apply List.Nodup.filter
  unfold allPositions intRange
  rw [List.nodup_flatMap]
  have hrange : ∀ n : Int, ((List.range n.toNat).map (fun i : Nat => (i : Int))).Nodup := by
    intro n
    refine List.Nodup.map ?_ (List.nodup_range _)
    intro a b h
    simpa using h
  constructor
  · intro y _
    refine List.Nodup.map ?_ (hrange g.width)
    intro a b hab
    simpa using hab
  · refine List.Pairwise.imp ?_ (hrange g.height)
    intro y1 y2 hne a ha1 ha2
    simp only [List.mem_map] at ha1 ha2
    obtain ⟨x1, _, rfl⟩ := ha1
    obtain ⟨x2, _, heq⟩ := ha2
    exact hne (by simpa using congrArg Prod.snd heq.symm)

/-- Summing island sizes with `foldl` (the source's `reduce`). -/
theorem foldl_add_tiles_length :
    ∀ (L : List Island) (n : Nat),
      L.foldl (fun sum island => sum + island.tiles.length) n =
        n + ((L.map (fun I => I.tiles)).map List.length).sum := by
  intro L
  induction L with
  | nil => intro n; simp
  | cons I t ih =>
    intro n
    rw [List.foldl_cons, ih]
    simp only [List.map_cons, List.sum_cons]
    omega

/-- Claim C3: `validateRoadConnectivity` reports `connected` exactly when at
most one island was found; the returned islands are nonempty, internally
duplicate-free, pairwise disjoint, their union is exactly the set of road
positions (characterized explicitly: the in-bounds ground cells whose sprite
has path-like connectivity), each island is connected under 4-directional
adjacency (walks staying inside the island) and maximal (no road tile
adjacent to an island lies outside it), and `totalRoadTiles` is exactly the
number of road positions. -/
theorem validateRoadConnectivity_spec (g : GridState) :
    ((validateRoadConnectivity g).connected = true ↔
      (validateRoadConnectivity g).islandCount ≤ 1) ∧
    (validateRoadConnectivity g).islandCount =
      (validateRoadConnectivity g).islands.length ∧
    (∀ p : Pos, p ∈ roadPositionsList g ↔
      0 ≤ p.1 ∧ p.1 < g.width ∧ 0 ≤ p.2 ∧ p.2 < g.height ∧
        isRoadAt g p.1 p.2 = true) ∧
    (∀ I ∈ (validateRoadConnectivity g).islands, I.tiles ≠ [] ∧ I.tiles.Nodup) ∧
    List.Pairwise (fun I J => ∀ p ∈ I.tiles, p ∉ J.tiles)
      (validateRoadConnectivity g).islands ∧
    (∀ p : Pos, (∃ I ∈ (validateRoadConnectivity g).islands, p ∈ I.tiles) ↔
      p ∈ roadPositionsList g) ∧
    (∀ I ∈ (validateRoadConnectivity g).islands, ∀ p ∈ I.tiles, ∀ q ∈ I.tiles,
      roadReach I.tiles p q) ∧
    (∀ I ∈ (validateRoadConnectivity g).islands, ∀ p ∈ I.tiles, ∀ q : Pos,
      adjacent p q → q ∈ roadPositionsList g → q ∈ I.tiles) ∧
    (validateRoadConnectivity g).totalRoadTiles = (roadPositionsList g).length := by
  obtain ⟨h1, h2, h3, h4⟩ := getRoadIslandsAux_spec (roadPositionsList g)
    (roadPositionsList_nodup g) (roadPositionsList g) []
    (fun p hp => hp) (by simp) (by simp) (fun p hp => Or.inr hp)
  have hisl : (validateRoadConnectivity g).islands =
      getRoadIslandsAux (roadPositionsList g) (roadPositionsList g) [] := rfl
  have hunion : ∀ p : Pos,
      (∃ I ∈ (validateRoadConnectivity g).islands, p ∈ I.tiles) ↔
        p ∈ roadPositionsList g := by
    intro p
    rw [hisl]
    constructor
    · rintro ⟨I, hI, hpI⟩
      exact ((h1 I hI).2.2 p hpI).1
    · intro hp
      rcases h4 p hp with h | h
      · simp at h
      · exact h
  refine ⟨?_, rfl, mem_roadPositionsList g, ?_, ?_, hunion, ?_, ?_, ?_⟩
  · simp [validateRoadConnectivity]
  · intro I hI
    rw [hisl] at hI
    exact ⟨(h1 I hI).1, (h1 I hI).2.1⟩
  · rw [hisl]; exact h3
  · intro I hI p hp q hq
    rw [hisl] at hI
    obtain ⟨s, hs, hchar⟩ := h2 I hI
    have hsroad := ((hchar s).mp hs).1
    have hp' := (hchar p).mp hp
    have hq' := (hchar q).mp hq
    have hps : roadReach (roadPositionsList g) p s := roadReach_symm hsroad hp'.2
    have hpq : roadReach (roadPositionsList g) p q := hps.trans hq'.2
    exact (roadReach_restrict hchar hp hpq).2
  · intro I hI p hp q hadj hq
    rw [hisl] at hI
    obtain ⟨s, _, hchar⟩ := h2 I hI
    exact (hchar q).mpr ⟨hq, ((hchar p).mp hp).2.tail ⟨hq, hadj⟩⟩
  · have htot : (validateRoadConnectivity g).totalRoadTiles =
        ((validateRoadConnectivity g).islands.map (fun I => I.tiles)).flatten.length := by
      show (getRoadIslands g).foldl (fun sum island => sum + island.tiles.length) 0 =
        ((getRoadIslands g).map (fun I => I.tiles)).flatten.length
      rw [List.length_flatten, foldl_add_tiles_length]
      simp [List.map_map]
    rw [htot]
    have hnodupflat :
        ((validateRoadConnectivity g).islands.map (fun I => I.tiles)).flatten.Nodup := by
      rw [List.nodup_flatten]
      constructor
      · intro l hl
        obtain ⟨I, hI, rfl⟩ := List.mem_map.mp hl
        rw [hisl] at hI
        exact (h1 I hI).2.1
      · have h3' : List.Pairwise (fun I J => ∀ p ∈ I.tiles, p ∉ J.tiles)
            (validateRoadConnectivity g).islands := by rw [hisl]; exact h3
        exact List.Pairwise.map _ (fun I J hIJ a haI haJ => hIJ a haI haJ) h3'
    have hmemiff : ∀ p : Pos,
        p ∈ ((validateRoadConnectivity g).islands.map (fun I => I.tiles)).flatten ↔
          p ∈ roadPositionsList g := by
      intro p
      rw [List.mem_flatten, ← hunion p]
      constructor
      · rintro ⟨l, hl, hpl⟩
        obtain ⟨I, hI, rfl⟩ := List.mem_map.mp hl
        exact ⟨I, hI, hpl⟩
      · rintro ⟨I, hI, hpI⟩
        exact ⟨I.tiles, List.mem_map.mpr ⟨I, hI, rfl⟩, hpI⟩
    have hfs : ((validateRoadConnectivity g).islands.map
        (fun I => I.tiles)).flatten.toFinset = (roadPositionsList g).toFinset := by
      apply Finset.ext
      intro p
      rw [List.mem_toFinset, List.mem_toFinset]
      exact hmemiff p
    rw [← List.toFinset_card_of_nodup hnodupflat, hfs,
      List.toFinset_card_of_nodup (roadPositionsList_nodup g)]

/-! ### Network-repair frame property (claim C4) -/

/-- `setTile` never changes the catalog or the dimensions. -/
theorem setTile_preserves_shape (g : GridState) (x y : Int) (a : String) (l : Layer) :
    ((setTile g x y a l).1).metadata = g.metadata ∧
      ((setTile g x y a l).1).width = g.width ∧
      ((setTile g x y a l).1).height = g.height := by
  unfold setTile
  cases getSpriteOrThrow g a with
  | error e => exact ⟨rfl, rfl, rfl⟩
  | ok s =>
    by_cases hb : outOfBounds g x y
    · rw [if_pos hb]
      exact ⟨rfl, rfl, rfl⟩
    · rw [if_neg hb]
      cases l <;> exact ⟨rfl, rfl, rfl⟩

/-- A failing `setTile` returns the untouched grid (throw before mutation). -/
theorem setTile_error_fst (g : GridState) (x y : Int) (a : String) (l : Layer)
    (e : String) (h : (setTile g x y a l).2 = Option.some e) :
    (setTile g x y a l).1 = g := by
  unfold setTile at h ⊢
  cases hs : getSpriteOrThrow g a with
  | error e2 => simp [hs]
  | ok s =>
    simp only [hs] at h ⊢
    by_cases hb : outOfBounds g x y
    · simp [hb]
    · simp only [if_neg hb] at h
      cases l <;> simp at h

/-- `setTile` leaves every cell other than the written one untouched. -/
theorem getTile_setTile_other (g : GridState) (x y : Int) (a : String) (l : Layer)
    (a1 b1 : Int) (l1 : Layer) (hne : ¬(a1 = x ∧ b1 = y ∧ l1 = l)) :
    getTile (setTile g x y a l).1 a1 b1 l1 = getTile g a1 b1 l1 := by
  unfold setTile
  cases getSpriteOrThrow g a with
  | error e => rfl
  | ok s =>
    by_cases hb : outOfBounds g x y
    · rw [if_pos hb]
    · rw [if_neg hb]
      cases l with
      | ground =>
        cases l1 with
        | object => rfl
        | ground =>
          have hne2 : ¬(a1 = x ∧ b1 = y) := fun hc => hne ⟨hc.1, hc.2, rfl⟩
          show (if outOfBounds g a1 b1 then Option.none
              else writeCell g.ground x y { assetId := a, layer := Layer.ground } a1 b1) =
            getTile g a1 b1 Layer.ground
          unfold getTile writeCell
          by_cases hoob : outOfBounds g a1 b1
          · rw [if_pos hoob, if_pos hoob]
          · rw [if_neg hoob, if_neg hoob]
            exact if_neg hne2
      | object =>
        cases l1 with
        | ground => rfl
        | object =>
          have hne2 : ¬(a1 = x ∧ b1 = y) := fun hc => hne ⟨hc.1, hc.2, rfl⟩
          show (if outOfBounds g a1 b1 then Option.none
              else writeCell g.objects x y { assetId := a, layer := Layer.object } a1 b1) =
            getTile g a1 b1 Layer.object
          unfold getTile writeCell
          by_cases hoob : outOfBounds g a1 b1
          · rw [if_pos hoob, if_pos hoob]
          · rw [if_neg hoob, if_neg hoob]
            exact if_neg hne2

/-- A successful ground-layer `setTile` writes exactly the requested cell. -/
theorem getTile_setTile_ground_same (g : GridState) (x y : Int) (a : String)
    (h : (setTile g x y a Layer.ground).2 = Option.none) :
    getTile (setTile g x y a Layer.ground).1 x y Layer.ground =
      Option.some { assetId := a, layer := Layer.ground } := by
  unfold setTile at h ⊢
  cases hs : getSpriteOrThrow g a with
  | error e => simp [hs] at h
  | ok s =>
    simp only [hs] at h ⊢
    by_cases hb : outOfBounds g x y
    · simp [hb] at h
    · rw [if_neg hb]
      show (if outOfBounds g x y then Option.none
          else writeCell g.ground x y { assetId := a, layer := Layer.ground } x y) =
        Option.some { assetId := a, layer := Layer.ground }
      rw [if_neg hb]
      unfold writeCell
      simp

/-- `getSprite` depends only on the catalog. -/
theorem getSprite_congr {g g' : GridState} (hm : g'.metadata = g.metadata) (id : String) :
    getSprite g' id = getSprite g id := by
  unfold getSprite
  rw [hm]

/-- `isRoadAt` depends only on the catalog and the ground cell. -/
theorem isRoadAt_congr {g g' : GridState} (x y : Int) (hm : g'.metadata = g.metadata)
    (ht : getTile g' x y Layer.ground = getTile g x y Layer.ground) :
    isRoadAt g' x y = isRoadAt g x y := by
  unfold isRoadAt
  rw [ht]
  cases getTile g x y Layer.ground with
  | none => rfl
  | some tile =>
    show (match getSprite g' tile.assetId with
      | Option.none => false
      | Option.some sprite => isRoadSprite sprite) =
      (match getSprite g tile.assetId with
      | Option.none => false
      | Option.some sprite => isRoadSprite sprite)
    rw [getSprite_congr hm]

/-- Destructor for `isRoadAt`. -/
theorem isRoadAt_elim {g : GridState} {x y : Int} (h : isRoadAt g x y = true) :
    ∃ cell s, getTile g x y Layer.ground = Option.some cell ∧
      getSprite g cell.assetId = Option.some s ∧ isRoadSprite s = true := by
  unfold isRoadAt at h
  cases ht : getTile g x y Layer.ground with
  | none => simp [ht] at h
  | some cell =>
    rw [ht] at h
    cases hs : getSprite g cell.assetId with
    | none => simp [hs] at h
    | some s =>
      refine ⟨cell, s, rfl, hs, ?_⟩
      simpa [hs] using h

/-- Constructor for `isRoadAt`. -/
theorem isRoadAt_intro {g : GridState} {x y : Int} {cell : MapCell} {s : Sprite}
    (ht : getTile g x y Layer.ground = Option.some cell)
    (hs : getSprite g cell.assetId = Option.some s) (hr : isRoadSprite s = true) :
    isRoadAt g x y = true := by
  unfold isRoadAt
  rw [ht]
  show (match getSprite g cell.assetId with
    | Option.none => false
    | Option.some sprite => isRoadSprite sprite) = true
  rw [hs]
  exact hr

/-- Upgrade chains preserve roadness. -/
theorem upgradeChain_isRoad {meta : SpritesheetMetadata} {s t : Sprite}
    (h : Relation.ReflTransGen (upgradeStep meta) s t) (hs : isRoadSprite s = true) :
    isRoadSprite t = true := by
  induction h with
  | refl => exact hs
  | tail _ hstep _ => exact hstep.2.1

/-- `roadEvolves` is reflexive. -/
theorem roadEvolves_refl (g : GridState) : roadEvolves g g := by
  refine ⟨rfl, rfl, rfl, ?_⟩
  intro x y h
  obtain ⟨cell, s, ht, hs, _⟩ := isRoadAt_elim h
  exact ⟨cell, cell, s, s, ht, hs, ht, hs, Relation.ReflTransGen.refl⟩

/-- `roadEvolves` composes. -/
theorem roadEvolves_trans {g1 g2 g3 : GridState} (h12 : roadEvolves g1 g2)
    (h23 : roadEvolves g2 g3) : roadEvolves g1 g3 := by
  obtain ⟨hm12, hw12, hh12, hc12⟩ := h12
  obtain ⟨hm23, hw23, hh23, hc23⟩ := h23
  refine ⟨hm23.trans hm12, hw23.trans hw12, hh23.trans hh12, ?_⟩
  intro x y hroad
  obtain ⟨cell, cell2, s, s2, ht1, hs1, ht2, hs2, hchain⟩ := hc12 x y hroad
  have hsroad : isRoadSprite s = true := by
    obtain ⟨cell', s', ht', hs', hr'⟩ := isRoadAt_elim hroad
    cases Option.some.inj (ht1.symm.trans ht')
    cases Option.some.inj (hs1.symm.trans hs')
    exact hr'
  have hs2road : isRoadSprite s2 = true := upgradeChain_isRoad hchain hsroad
  have hroad2 : isRoadAt g2 x y = true := isRoadAt_intro ht2 hs2 hs2road
  obtain ⟨cell2', cell3, s2', s3, ht2', hs2', ht3, hs3, hchain2⟩ := hc23 x y hroad2
  cases Option.some.inj (ht2.symm.trans ht2')
  cases Option.some.inj (hs2.symm.trans hs2')
  rw [hm12] at hchain2
  exact ⟨cell, cell3, s, s3, ht1, hs1, ht3, hs3, hchain.trans hchain2⟩

/-- With duplicate-free catalog ids, looking a member sprite up by its own id
returns that sprite. -/
theorem find_id_of_nodup {l : List Sprite} (h : (l.map Sprite.id).Nodup) {s : Sprite}
    (hs : s ∈ l) : l.find? (fun t => decide (t.id = s.id)) = Option.some s := by
  induction l with
  | nil => cases hs
  | cons a t ih =>
    rw [List.find?_cons]
    rcases List.mem_cons.mp hs with rfl | hst
    · simp
    · have hne : a.id ≠ s.id := by
        intro he
        have hmem : s.id ∈ t.map Sprite.id := List.mem_map.mpr ⟨s, hst, rfl⟩
        rw [← he] at hmem
        exact (List.nodup_cons.mp (by simpa using h)).1 hmem
      have hcond : (decide (a.id = s.id)) = false := by simp [hne]
      rw [hcond]
      exact ih (List.nodup_cons.mp (by simpa using h)).2 hst

/-- `getSprite` at a member sprite's own id (unique-id catalog). -/
theorem getSprite_id_of_mem (g : GridState)
    (hids : (g.metadata.sprites.map Sprite.id).Nodup) {s : Sprite}
    (hs : s ∈ g.metadata.sprites) : getSprite g s.id = Option.some s :=
  find_id_of_nodup hids hs

/-- A present tile is in bounds. -/
theorem getTile_some_not_oob {g : GridState} {x y : Int} {l : Layer} {c : MapCell}
    (h : getTile g x y l = Option.some c) : ¬ outOfBounds g x y := by
  intro hb
  unfold getTile at h
  rw [if_pos hb] at h
  cases h

/-- `setTile` succeeds on a valid id and in-bounds coordinates. -/
theorem setTile_snd_none (g : GridState) (x y : Int) (a : String) (l : Layer)
    {s : Sprite} (hs : getSprite g a = Option.some s) (hb : ¬ outOfBounds g x y) :
    (setTile g x y a l).2 = Option.none := by
  unfold setTile getSpriteOrThrow
  simp only [hs, if_neg hb]
  cases l <;> rfl

/-- One `updateAdjacentRoad` call is a legitimate evolution: it either leaves
the grid untouched or replaces the single targeted road tile by a catalog
road sprite whose connects set gains exactly one direction. -/
theorem updateAdjacentRoad_roadEvolves (g : GridState) (x y : Int) (d : Direction)
    (hids : (g.metadata.sprites.map Sprite.id).Nodup)
    (hconn : ∀ s ∈ g.metadata.sprites, (connectsOf s).Nodup) :
    roadEvolves g (updateAdjacentRoad g x y d).1 := by
  unfold updateAdjacentRoad
  split
  next => exact roadEvolves_refl g
  next tile ht =>
    split
    next => exact roadEvolves_refl g
    next sprite hsp =>
      split
      next => exact roadEvolves_refl g
      next hroadspr =>
        simp only []
        split
        next => exact roadEvolves_refl g
        next hmem =>
          split
          next => exact roadEvolves_refl g
          next newSprite hfind =>
            split
            next hne =>
              -- analyse the found sprite
              have hspritemem : sprite ∈ g.metadata.sprites :=
                List.mem_of_find?_eq_some hsp
              have hfind2 : g.metadata.sprites.find? (fun t =>
                  decide (t.category = SpriteCategory.ground) && isRoadSprite t &&
                  (decide ((connectsOf t).length =
                      (connectsOf sprite ++ [d]).length) &&
                    (connectsOf sprite ++ [d]).all (fun d2 =>
                      decide (d2 ∈ connectsOf t)))) =
                  Option.some newSprite := by
                have h0 : ((g.metadata.sprites.filter (fun t =>
                    decide ((connectsOf t).length =
                        (connectsOf sprite ++ [d]).length) &&
                      (connectsOf sprite ++ [d]).all (fun d2 =>
                        decide (d2 ∈ connectsOf t)))).filter (fun t =>
                    decide (t.category = SpriteCategory.ground) &&
                      isRoadSprite t)).head? = Option.some newSprite := hfind
                rw [List.filter_filter, head_of_filter_eq_find] at h0
                exact h0
              have hnewmem : newSprite ∈ g.metadata.sprites :=
                List.mem_of_find?_eq_some hfind2
              have hpred := List.find?_some hfind2
              simp only [Bool.and_eq_true, decide_eq_true_eq, List.all_eq_true] at hpred
              obtain ⟨⟨hcat, hroadnew⟩, hlen, hall⟩ := hpred
              have hdirs : (connectsOf sprite ++ [d]).Nodup := by
                rw [List.nodup_append]
                exact ⟨hconn sprite hspritemem, List.nodup_singleton _,
                  List.disjoint_singleton.mpr hmem⟩
              have hset := (length_and_subset_iff_toFinset_eq
                (hconn newSprite hnewmem) hdirs).mp ⟨hlen, fun e he => hall e he⟩
              have hins : (connectsOf sprite ++ [d]).toFinset =
                  insert d (connectsOf sprite).toFinset := by
                ext e
                simp [List.mem_toFinset, or_comm]
              have hupg : upgradeStep g.metadata sprite newSprite := by
                refine ⟨hnewmem, hroadnew, d, ?_, hset.trans hins⟩
                rw [List.mem_toFinset]
                exact hmem
              -- grid effects of the write
              have hb : ¬ outOfBounds g x y := getTile_some_not_oob ht
              have hsid : getSprite g newSprite.id = Option.some newSprite :=
                getSprite_id_of_mem g hids hnewmem
              have hsucc : (setTile g x y newSprite.id Layer.ground).2 = Option.none :=
                setTile_snd_none g x y newSprite.id Layer.ground hsid hb
              obtain ⟨hm, hw, hh⟩ :=
                setTile_preserves_shape g x y newSprite.id Layer.ground
              refine ⟨hm, hw, hh, ?_⟩
              intro x1 y1 hroad1
              by_cases hxy : x1 = x ∧ y1 = y
              · obtain ⟨rfl, rfl⟩ := hxy
                obtain ⟨cell0, s0, ht0, hs0, hr0⟩ := isRoadAt_elim hroad1
                cases Option.some.inj (ht.symm.trans ht0)
                cases Option.some.inj (hsp.symm.trans hs0)
                refine ⟨tile, { assetId := newSprite.id, layer := Layer.ground },
                  sprite, newSprite, ht, hsp, ?_, ?_,
                  Relation.ReflTransGen.single hupg⟩
                · exact getTile_setTile_ground_same g x1 y1 newSprite.id hsucc
                · exact (getSprite_congr hm newSprite.id).trans hsid
              · obtain ⟨cell0, s0, ht0, hs0, hr0⟩ := isRoadAt_elim hroad1
                have hother : getTile (setTile g x y newSprite.id Layer.ground).1
                    x1 y1 Layer.ground = getTile g x1 y1 Layer.ground :=
                  getTile_setTile_other g x y newSprite.id Layer.ground x1 y1
                    Layer.ground (fun hc => hxy ⟨hc.1, hc.2.1⟩)
                exact ⟨cell0, cell0, s0, s0, ht0, hs0, hother.trans ht0,
                  (getSprite_congr hm cell0.assetId).trans hs0,
                  Relation.ReflTransGen.refl⟩
            next => exact roadEvolves_refl g

/-- Writing a ground cell that is not currently a road never touches a road
cell. -/
theorem setTile_nonroad_roadEvolves (g : GridState) (x y : Int) (a : String)
    (h : isRoadAt g x y = false) :
    roadEvolves g (setTile g x y a Layer.ground).1 := by
  obtain ⟨hm, hw, hh⟩ := setTile_preserves_shape g x y a Layer.ground
  refine ⟨hm, hw, hh, ?_⟩
  intro x1 y1 hroad1
  have hne : ¬(x1 = x ∧ y1 = y ∧ Layer.ground = Layer.ground) := by
    rintro ⟨rfl, rfl, -⟩
    exact absurd (hroad1.symm.trans h) (by simp)
  obtain ⟨cell0, s0, ht0, hs0, _⟩ := isRoadAt_elim hroad1
  have hother := getTile_setTile_other g x y a Layer.ground x1 y1 Layer.ground hne
  exact ⟨cell0, cell0, s0, s0, ht0, hs0, hother.trans ht0,
    (getSprite_congr hm cell0.assetId).trans hs0, Relation.ReflTransGen.refl⟩

/-- An invariant preserved by every step is preserved by `foldl`. -/
theorem foldl_preserves {α σ : Type} (P : σ → Prop) (f : σ → α → σ)
    (hstep : ∀ s a, P s → P (f s a)) :
    ∀ (l : List α) (s : σ), P s → P (l.foldl f s) := by
  intro l
  induction l with
  | nil => intro s h; exact h
  | cons a t ih =>
    intro s h
    rw [List.foldl_cons]
    exact ih _ (hstep s a h)

/-- The neighbour-upgrade loop only performs legitimate upgrades. -/
theorem updateAdjacentRoads_evolves (g0 g : GridState) (x y : Int)
    (dirs : List Direction)
    (hids : (g0.metadata.sprites.map Sprite.id).Nodup)
    (hconn : ∀ s ∈ g0.metadata.sprites, (connectsOf s).Nodup)
    (h : roadEvolves g0 g) :
    roadEvolves g0 (updateAdjacentRoads g x y dirs).1 := by
  unfold updateAdjacentRoads
  refine foldl_preserves (fun st : GridState × Nat => roadEvolves g0 st.1) _ ?_ dirs (g, 0) h
  intro st dir hst
  simp only []
  split
  next => exact hst
  next =>
    refine roadEvolves_trans hst (updateAdjacentRoad_roadEvolves _ _ _ _ ?_ ?_)
    · rw [hst.1]; exact hids
    · rw [hst.1]; exact hconn

/-- The skip-branch upgrade loop only performs legitimate upgrades. -/
theorem skipBranchUpdates_evolves (g0 : GridState) (path : List Pos) (i : Nat)
    (point : Pos) (g : GridState)
    (hids : (g0.metadata.sprites.map Sprite.id).Nodup)
    (hconn : ∀ s ∈ g0.metadata.sprites, (connectsOf s).Nodup)
    (h : roadEvolves g0 g) :
    roadEvolves g0 (skipBranchUpdates path i point g).1 := by
  unfold skipBranchUpdates
  refine foldl_preserves (fun st : GridState × Nat => roadEvolves g0 st.1) _ ?_ _ (g, 0) h
  intro st dir hst
  simp only []
  refine roadEvolves_trans hst (updateAdjacentRoad_roadEvolves _ _ _ _ ?_ ?_)
  · rw [hst.1]; exact hids
  · rw [hst.1]; exact hconn

/-- One iteration of the repair route loop only fills gaps or upgrades. -/
theorem drawConnectingPoint_evolves (g0 : GridState)
    (hids : (g0.metadata.sprites.map Sprite.id).Nodup)
    (hconn : ∀ s ∈ g0.metadata.sprites, (connectsOf s).Nodup)
    (path : List Pos) (st : ConnectLoopState) (i : Nat) (point : Pos)
    (h : roadEvolves g0 st.grid) :
    roadEvolves g0 (drawConnectingPoint path st i point).grid := by
  unfold drawConnectingPoint
  split
  next hroad =>
    exact skipBranchUpdates_evolves g0 path i point st.grid hids hconn h
  next hnotroad =>
    simp only []
    split
    next => exact h
    next sprite hfind =>
      split
      next g2 heq =>
        have hg2 : (setTile st.grid point.1 point.2 sprite.id Layer.ground).1 = g2 := by
          rw [heq]
        have hnr : isRoadAt st.grid point.1 point.2 = false := by
          simpa using hnotroad
        have h1 : roadEvolves st.grid g2 :=
          hg2 ▸ setTile_nonroad_roadEvolves st.grid point.1 point.2 sprite.id hnr
        exact updateAdjacentRoads_evolves g0 g2 point.1 point.2 _ hids hconn
          (roadEvolves_trans h h1)
      next g2 e heq => exact h

/-- A whole bridging route only fills gaps or upgrades. -/
theorem drawConnectingRoad_evolves (g0 : GridState)
    (hids : (g0.metadata.sprites.map Sprite.id).Nodup)
    (hconn : ∀ s ∈ g0.metadata.sprites, (connectsOf s).Nodup)
    (g : GridState) (fromX fromY toX toY : Int) (h : roadEvolves g0 g) :
    roadEvolves g0 (drawConnectingRoad g fromX fromY toX toY).grid := by
  unfold drawConnectingRoad
  refine foldl_preserves (fun st : ConnectLoopState => roadEvolves g0 st.grid) _ ?_ _ _ h
  intro st ip hst
  exact drawConnectingPoint_evolves g0 hids hconn _ st ip.1 ip.2 hst

/-- Claim C4: network repair (`connectRoads`) never overwrites a road tile
except via legitimate upgrades: over a catalog with unique ids and set-valued
connects lists, every cell holding a road tile before the repair holds, after
it, a tile obtained from the original by a (possibly empty) chain of
single-new-direction upgrades - in particular skipped road cells keep their
tile unless upgraded, and the catalog and dimensions are untouched. -/
theorem connectRoads_upgrades_only (g : GridState)
    (hids : (g.metadata.sprites.map Sprite.id).Nodup)
    (hconn : ∀ s ∈ g.metadata.sprites, (connectsOf s).Nodup) :
    roadEvolves g (connectRoadsExec g).1 := by
  unfold connectRoadsExec
  simp only []
  split
  next => exact roadEvolves_refl g
  next =>
    refine foldl_preserves (fun st : ConnectLoopState => roadEvolves g st.grid) _ ?_ _ _
      (roadEvolves_refl g)
    intro st pair hst
    simp only []
    exact drawConnectingRoad_evolves g hids hconn st.grid _ _ _ _ hst

/-- Witness for C4 on a grid with two single-tile road islands over the
layout catalog. -/
theorem connectRoads_upgrades_only_witness :
    (twoIslandGrid.metadata.sprites.map Sprite.id).Nodup ∧
    (∀ s ∈ twoIslandGrid.metadata.sprites, (connectsOf s).Nodup) ∧
    roadEvolves twoIslandGrid (connectRoadsExec twoIslandGrid).1 :=
  ⟨by decide, by decide,
    connectRoads_upgrades_only twoIslandGrid (by decide) (by decide)⟩

end GenTown
